import Mathlib

set_option maxHeartbeats 1000000

/-!
A shallow embedding of the portfolio risk-analysis core of this repository
(`src/analysis/valuation.py`, `src/analysis/riskprofile.py`,
`src/analysis/data_service.py`, `backend/src/analysis/graph.py`).

Modelling conventions:
* Python floats are modelled by `ℚ` (the verified identities are exact
  real-number identities; `x / 0 = 0` in `ℚ` is noted wherever it could
  matter).
* Python dicts are modelled by association lists whose lookup returns the
  first matching entry (dict keys are unique in all modelled code paths).
* A raised `ValueError` is modelled by `Except.error`; the distinct error
  messages of the source are collapsed into the error taxonomy of the spec.
* Timestamps are integers: hours at the fetch stage (native sub-daily
  cadence), calendar days after daily resampling.
-/

namespace Portfolio

/-! ### Generic column helpers (pandas `ffill` / `bfill` / `fillna`) -/

/-- Forward fill with an explicit carried value (`none` before any
observation): pandas `Series.ffill`. -/
def ffillAux (carry : Option ℚ) : List (Option ℚ) → List (Option ℚ)
  | [] => []
  | none :: rest => carry :: ffillAux carry rest
  | some v :: rest => some v :: ffillAux (some v) rest

def ffill (l : List (Option ℚ)) : List (Option ℚ) := ffillAux none l

/-- First present value of a column, if any. -/
def firstSome : List (Option ℚ) → Option ℚ
  | [] => none
  | none :: rest => firstSome rest
  | some v :: _ => some v

/-- Backward fill: every missing value takes the nearest following present
value (pandas `Series.bfill`); trailing gaps stay missing. -/
def bfill : List (Option ℚ) → List (Option ℚ)
  | [] => []
  | none :: rest => firstSome rest :: bfill rest
  | some v :: rest => some v :: bfill rest

/-- pandas `Series.fillna(0.0)`. -/
def fillZero (l : List (Option ℚ)) : List (Option ℚ) :=
  l.map (fun o => some (o.getD 0))

/-- Number of missing values in a column (`isna().sum()`). -/
def countNone (l : List (Option ℚ)) : Nat :=
  l.countP (fun o => o.isNone)

/-- Missingness pattern of a column. -/
def noneMask (l : List (Option ℚ)) : List Bool :=
  l.map (fun o => o.isNone)

/-- Number of positions at which two (equally long) columns differ. -/
def changedCount (a b : List (Option ℚ)) : Nat :=
  (a.zip b).countP (fun e => decide (e.1 ≠ e.2))

/-- Whether a column has no missing value. -/
def allSomeB (l : List (Option ℚ)) : Bool :=
  l.all (fun o => o.isSome)

/-- Consecutive integer interval `[lo, hi]` (`pd.date_range(lo, hi, freq="D")`,
days coded as integers). -/
def dateRange (lo hi : ℤ) : List ℤ :=
  (List.range (hi - lo + 1).toNat).map (fun i => lo + Int.ofNat i)

/-- First value observed at timestamp `t` in a series (the row a
timestamp-keyed join would pick; modelled series have unique timestamps). -/
def lookupTs (t : ℤ) (s : List (ℤ × ℚ)) : Option ℚ :=
  (s.find? (fun r => decide (r.1 = t))).map (fun r => r.2)

/-! ### Data model (`valuation.py`, `riskprofile.py`) -/

/-- A position dict after validation: the four required keys are present;
`leverage` is `none` when the key is absent (all reads of it in the source
are `position.get("leverage", 1.0)`, modelled by `Option.getD 1`). -/
structure Position where
  asset : String
  quantity : ℚ
  position_type : String
  entry_price : ℚ
  leverage : Option ℚ
deriving DecidableEq

/-- Key of the `current_prices` dict: either the composite
`(asset, position_type)` tuple or the bare asset string. -/
inductive PriceKey where
  | composite (asset position_type : String) : PriceKey
  | bare (asset : String) : PriceKey
deriving DecidableEq

abbrev PriceMap := List (PriceKey × ℚ)

/-- `current_prices.get(key)`: first entry with the given key. -/
def pmGet (m : PriceMap) (k : PriceKey) : Option ℚ :=
  (m.find? (fun e => decide (e.1 = k))).map (fun e => e.2)

/-- The spec's error taxonomy; every `raise ValueError(...)` of the source
is mapped onto the corresponding kind. -/
inductive Err where
  | missingPrice : Err
  | unknownPositionType : Err
  | noDataAvailable : Err
  | invalidPortfolio : Err
deriving DecidableEq

instance {ε α : Type} [DecidableEq ε] [DecidableEq α] :
    DecidableEq (Except ε α)
  | .error e, .error f =>
    if h : e = f then .isTrue (by rw [h]) else .isFalse (by simp [h])
  | .error _, .ok _ => .isFalse (by simp)
  | .ok _, .error _ => .isFalse (by simp)
  | .ok a, .ok b =>
    if h : a = b then .isTrue (by rw [h]) else .isFalse (by simp [h])

/-! ### Valuation (`valuation.py`) -/

/-- `calculate_spot_value`. -/
def calculate_spot_value (quantity current_price : ℚ) : ℚ :=
  quantity * current_price

/-- `calculate_futures_long_value`:
margin `(quantity * entry_price) / leverage` plus pnl
`(current_price - entry_price) * quantity` (leverage does not scale pnl). -/
def calculate_futures_long_value
    (quantity entry_price current_price leverage : ℚ) : ℚ :=
  (quantity * entry_price) / leverage + (current_price - entry_price) * quantity

/-- `calculate_futures_short_value`:
margin `(quantity * entry_price) / leverage` plus pnl
`(entry_price - current_price) * quantity`. -/
def calculate_futures_short_value
    (quantity entry_price current_price leverage : ℚ) : ℚ :=
  (quantity * entry_price) / leverage + (entry_price - current_price) * quantity

/-- The dispatch tail of `calculate_position_value`, once the current
price has been resolved. -/
def valueAtPrice (p : Position) (current_price : ℚ) : Except Err ℚ :=
  if p.position_type = "spot" then
    .ok (calculate_spot_value p.quantity current_price)
  else if p.position_type = "futures_long" then
    .ok (calculate_futures_long_value p.quantity p.entry_price current_price
      (p.leverage.getD 1))
  else if p.position_type = "futures_short" then
    .ok (calculate_futures_short_value p.quantity p.entry_price current_price
      (p.leverage.getD 1))
  else
    .error .unknownPositionType

/-- The price lookup of `calculate_position_value`: composite key
`(asset, position_type)` first, bare asset key as fallback. -/
def lookupPrice (m : PriceMap) (asset position_type : String) : Option ℚ :=
  match pmGet m (.composite asset position_type) with
  | some price => some price
  | none => pmGet m (.bare asset)

/-- `calculate_position_value`. -/
def calculate_position_value (p : Position) (current_prices : PriceMap) :
    Except Err ℚ :=
  match lookupPrice current_prices p.asset p.position_type with
  | none => .error .missingPrice
  | some current_price => valueAtPrice p current_price

/-- The loop body of `calculate_portfolio_value`: add one position's
value to the running total, the first failure aborting the loop. -/
def addPosition (current_prices : PriceMap) (acc : Except Err ℚ)
    (p : Position) : Except Err ℚ :=
  match acc with
  | .error e => .error e
  | .ok total =>
    match calculate_position_value p current_prices with
    | .error e => .error e
    | .ok v => .ok (total + v)

/-- `calculate_portfolio_value`: running total over the positions. -/
def calculate_portfolio_value (positions : List Position)
    (current_prices : PriceMap) : Except Err ℚ :=
  positions.foldl (addPosition current_prices) (.ok 0)

/-- `apply_price_shock`: every price multiplied by `1 + shock_pct`. -/
def apply_price_shock (base_prices : PriceMap) (shock_pct : ℚ) : PriceMap :=
  base_prices.map (fun e => (e.1, e.2 * (1 + shock_pct)))

/-- `calculate_delta_exposure`: signed quantity accumulation; positions of
an unknown type contribute nothing (no `else` branch in the source). -/
def calculate_delta_exposure (positions : List Position) : ℚ :=
  positions.foldl (fun delta p =>
    if p.position_type = "spot" then delta + p.quantity
    else if p.position_type = "futures_long" then delta + p.quantity
    else if p.position_type = "futures_short" then delta - p.quantity
    else delta) 0

/-- One row of the sensitivity table. -/
structure SensRow where
  price_change_pct : ℚ
  portfolio_value : ℚ
  pnl : ℚ
  return_pct : ℚ
deriving DecidableEq

/-- The loop body of `calculate_sensitivity_table`, one row per shock. -/
def sensRows (positions : List Position) (base_prices : PriceMap)
    (base_value : ℚ) : List ℚ → Except Err (List SensRow)
  | [] => .ok []
  | shock_pct :: rest =>
    match calculate_portfolio_value positions
        (apply_price_shock base_prices shock_pct) with
    | .error e => .error e
    | .ok shocked_value =>
      match sensRows positions base_prices base_value rest with
      | .error e => .error e
      | .ok rows =>
        .ok ({ price_change_pct := shock_pct * 100
             , portfolio_value := shocked_value
             , pnl := shocked_value - base_value
             , return_pct :=
                 (if base_value ≠ 0 then (shocked_value - base_value) / base_value
                  else 0) * 100 } :: rows)

/-- `calculate_sensitivity_table`. -/
def calculate_sensitivity_table (positions : List Position)
    (base_prices : PriceMap) (shock_range : List ℚ) :
    Except Err (List SensRow) :=
  match calculate_portfolio_value positions base_prices with
  | .error e => .error e
  | .ok base_value => sensRows positions base_prices base_value shock_range

/-- Spec-side signed quantity of one position (claim C2's wording):
`+quantity` for spot and futures_long, `-quantity` for futures_short. -/
def signedQuantity (p : Position) : ℚ :=
  if p.position_type = "spot" ∨ p.position_type = "futures_long" then p.quantity
  else if p.position_type = "futures_short" then -p.quantity
  else 0

/-! ### Validation (`riskprofile.py`, `_validate_positions`) -/

/-- A raw position dict as received by `_validate_positions`: any of the
keys may be absent. -/
structure RawPosition where
  asset : Option String
  quantity : Option ℚ
  position_type : Option String
  entry_price : Option ℚ
  leverage : Option ℚ
deriving DecidableEq

/-- The per-position checks of `_validate_positions`, in the order the
source performs them: the four required fields must be present, then the
position type, quantity, entry price and (defaulted) leverage are range
checked (`true` = no `ValueError` raised for this position). -/
def validatePosition (p : RawPosition) : Bool :=
  match p.asset with
  | none => false
  | some _ =>
    match p.quantity with
    | none => false
    | some q =>
      match p.position_type with
      | none => false
      | some t =>
        match p.entry_price with
        | none => false
        | some e =>
          (decide (t = "spot") || decide (t = "futures_long") ||
            decide (t = "futures_short")) &&
          decide (0 < q) && decide (0 < e) &&
          (decide (0 < p.leverage.getD 1) && decide (p.leverage.getD 1 ≤ 125))

/-- `_validate_positions` (`true` = the function returns without raising). -/
def validate_positions (positions : List RawPosition) : Bool :=
  decide (positions ≠ []) && decide (positions.length ≤ 20) &&
    positions.all validatePosition

/-- Spec-side per-position failure condition of claim C4, stated as in the
claim: a required field is lacking, the position type is outside the three
allowed kinds, a quantity or entry price is non-positive, or the leverage
(defaulting to 1) is outside `(0, 125]`. -/
def PositionInvalid (p : RawPosition) : Prop :=
  (p.asset = none ∨ p.quantity = none ∨ p.position_type = none ∨
    p.entry_price = none) ∨
  (∃ t, p.position_type = some t ∧
    t ≠ "spot" ∧ t ≠ "futures_long" ∧ t ≠ "futures_short") ∨
  (∃ q, p.quantity = some q ∧ q ≤ 0) ∨
  (∃ e, p.entry_price = some e ∧ e ≤ 0) ∨
  (p.leverage.getD 1 ≤ 0 ∨ 125 < p.leverage.getD 1)

instance (p : RawPosition) : Decidable (PositionInvalid p) := by
  unfold PositionInvalid; infer_instance

/-- Spec-side failure condition of claim C4, stated as in the claim. -/
def InvalidPortfolioCondition (ps : List RawPosition) : Prop :=
  ps = [] ∨ 20 < ps.length ∨ ∃ p ∈ ps, PositionInvalid p

instance (ps : List RawPosition) : Decidable (InvalidPortfolioCondition ps) := by
  unfold InvalidPortfolioCondition; infer_instance

/-! ### Time-series alignment (`data_service.py`, `align_time_series`)

A daily spot series is a list of `(day, close)` pairs, a daily futures
series a list of `(day, mark_price, funding_rate)` triples (the shape
produced by `resample_to_daily`: unique, ascending days).  Each column of
the aligned frame is the series left-joined onto the common calendar-day
range, then gap-filled; the source processes one column at a time, which
the per-column helpers below mirror. -/

/-- Mark-price sub-series of a futures series
(`df[["timestamp", "mark_price"]]`). -/
def markSeries (f : List (ℤ × ℚ × ℚ)) : List (ℤ × ℚ) :=
  f.map (fun r => (r.1, r.2.1))

/-- Funding-rate sub-series of a futures series
(`df[["timestamp", "funding_rate"]]`). -/
def fundingSeries (f : List (ℤ × ℚ × ℚ)) : List (ℤ × ℚ) :=
  f.map (fun r => (r.1, r.2.2))

/-- A series left-joined onto the day range and forward-filled: the state
of a column after `pd.merge(..., how="left")` and `.ffill()`. -/
def ffilledColumn (range : List ℤ) (s : List (ℤ × ℚ)) : List (Option ℚ) :=
  ffill (range.map (fun t => lookupTs t s))

/-- Warning text for leading spot gaps. -/
def spotGapWarning (asset : String) (n : Nat) : String :=
  asset ++ " spot: " ++ toString n ++
    " missing values at the beginning (no forward-fill source)"

/-- Warning text for missing mark prices. -/
def markGapWarning (asset : String) (n : Nat) : String :=
  asset ++ " futures: " ++ toString n ++ " missing mark prices"

/-- Warning text for missing funding rates. -/
def fundingGapWarning (asset : String) (n : Nat) : String :=
  asset ++ " funding: " ++ toString n ++ " missing funding rates"

/-- Final state of a spot column: back-fill only when missing values
remain after the forward fill. -/
def spotFinalColumn (range : List ℤ) (s : List (ℤ × ℚ)) : List (Option ℚ) :=
  let col := ffilledColumn range s
  if 0 < countNone col then bfill col else col

/-- Warnings emitted for a spot column (one entry, carrying the
post-forward-fill missing count, exactly when that count is positive). -/
def spotWarnings (asset : String) (range : List ℤ) (s : List (ℤ × ℚ)) :
    List String :=
  if 0 < countNone (ffilledColumn range s) then
    [spotGapWarning asset (countNone (ffilledColumn range s))]
  else []

/-- Final state of a mark-price column (forward fill, then back-fill when
gaps remain). -/
def markFinalColumn (range : List ℤ) (f : List (ℤ × ℚ × ℚ)) :
    List (Option ℚ) :=
  let col := ffilledColumn range (markSeries f)
  if 0 < countNone col then bfill col else col

/-- Warnings emitted for a mark-price column. -/
def markWarnings (asset : String) (range : List ℤ) (f : List (ℤ × ℚ × ℚ)) :
    List String :=
  if 0 < countNone (ffilledColumn range (markSeries f)) then
    [markGapWarning asset (countNone (ffilledColumn range (markSeries f)))]
  else []

/-- Final state of a funding column (forward fill, then `fillna(0.0)` when
gaps remain). -/
def fundingFinalColumn (range : List ℤ) (f : List (ℤ × ℚ × ℚ)) :
    List (Option ℚ) :=
  let col := ffilledColumn range (fundingSeries f)
  if 0 < countNone col then fillZero col else col

/-- Warnings emitted for a funding column. -/
def fundingWarnings (asset : String) (range : List ℤ)
    (f : List (ℤ × ℚ × ℚ)) : List String :=
  if 0 < countNone (ffilledColumn range (fundingSeries f)) then
    [fundingGapWarning asset (countNone (ffilledColumn range (fundingSeries f)))]
  else []

/-- The aligned frame: the common daily timestamp index plus one named
column per asset and instrument kind. -/
structure AlignedTable where
  timestamps : List ℤ
  columns : List (String × List (Option ℚ))
deriving DecidableEq

/-- Union (with multiplicity, which min/max ignore) of all timestamps of
all input series. -/
def allTimestamps (spot : List (String × List (ℤ × ℚ)))
    (futures : List (String × List (ℤ × ℚ × ℚ))) : List ℤ :=
  (spot.map (fun p => p.2.map (fun r => r.1))).flatten ++
    (futures.map (fun p => p.2.map (fun r => r.1))).flatten

/-- `align_time_series`: calendar-day range from the minimum to the
maximum observed timestamp; spot columns first, then per futures asset the
mark column followed by the funding column; warnings in the same order. -/
def align_time_series (spot : List (String × List (ℤ × ℚ)))
    (futures : List (String × List (ℤ × ℚ × ℚ))) :
    Except Err (AlignedTable × List String) :=
  match allTimestamps spot futures with
  | [] => .error .noDataAvailable
  | t :: ts =>
    let lo := (t :: ts).foldl min t
    let hi := (t :: ts).foldl max t
    let range := dateRange lo hi
    .ok ({ timestamps := range
         , columns :=
             spot.map (fun p => (p.1 ++ "_spot", spotFinalColumn range p.2)) ++
             (futures.map (fun p =>
               [(p.1 ++ "_futures_mark", markFinalColumn range p.2),
                (p.1 ++ "_funding", fundingFinalColumn range p.2)])).flatten }
       , (spot.map (fun p => spotWarnings p.1 range p.2)).flatten ++
         (futures.map (fun p =>
           markWarnings p.1 range p.2 ++ fundingWarnings p.1 range p.2)).flatten)

/-! ### Data fetching and daily resampling (`data_service.py`)

Fetch-stage timestamps are hours (the native sub-daily cadence of the
sources); `fetch_portfolio_data`'s `datetime.utcnow()` is the explicit
parameter `now`.  The three async database accessors (`src/database`, an
external collaborator of the analysis core) are a parameter record; a
raised exception is `Except.error ()`. -/

structure Database where
  get_ohlcv_data : String → ℤ → ℤ → Except Unit (List (ℤ × ℚ))
  get_mark_klines : String → ℤ → ℤ → Except Unit (List (ℤ × ℚ))
  get_funding_rates : String → ℤ → ℤ → Except Unit (List (ℤ × ℚ))

/-- Calendar day of an hour timestamp (`timedelta`-style floor). -/
def dayOf (t : ℤ) : ℤ := t.fdiv 24

/-- `df.sort_values("timestamp")` (stable ascending sort). -/
def sortByTs (l : List (ℤ × ℚ)) : List (ℤ × ℚ) :=
  l.insertionSort (fun a b => a.1 ≤ b.1)

/-- `futures_df.sort_values("timestamp")`; the funding component is
`none` where the left-join found no funding row for a mark timestamp. -/
def sortByTs3 (l : List (ℤ × ℚ × Option ℚ)) : List (ℤ × ℚ × Option ℚ) :=
  l.insertionSort (fun a b => a.1 ≤ b.1)

/-- `(df.timestamp.max() - df.timestamp.min()).days`. -/
def spanDays (rows : List (ℤ × ℚ)) : ℤ :=
  match rows.map (fun r => r.1) with
  | [] => 0
  | t :: ts => (((t :: ts).foldl max t) - ((t :: ts).foldl min t)).fdiv 24

/-- `fetch_portfolio_data`: per-asset spot and futures series plus the
minimum spot span in days (defaulting to `lookback_days`).  A failed or
empty fetch drops the asset from the corresponding dict; an asset whose
funding fetch is empty gets `funding_rate = 0.0` on every mark row, while
a non-empty funding fetch is left-joined onto the mark rows. -/
def fetch_portfolio_data (db : Database) (now : ℤ) (assets : List String)
    (lookback_days : ℤ) :
    List (String × List (ℤ × ℚ)) ×
      List (String × List (ℤ × ℚ × Option ℚ)) × ℤ :=
  let start := now - lookback_days * 24
  let spot_data_dict := assets.filterMap (fun asset =>
    match db.get_ohlcv_data asset start now with
    | .error _ => none
    | .ok [] => none
    | .ok (r :: rs) => some (asset, sortByTs (r :: rs)))
  let futures_data_dict := assets.filterMap (fun asset =>
    match db.get_mark_klines asset start now,
        db.get_funding_rates asset start now with
    | .error _, _ => none
    | .ok _, .error _ => none
    | .ok [], .ok _ => none
    | .ok (m :: ms), .ok funding =>
      let merged := if funding.isEmpty then
          (m :: ms).map (fun r => (r.1, r.2, some (0 : ℚ)))
        else
          (m :: ms).map (fun r => (r.1, r.2, lookupTs r.1 funding))
      some (asset, sortByTs3 merged))
  let min_days := spot_data_dict.foldl
    (fun m p => min m (spanDays p.2)) lookback_days
  (spot_data_dict, futures_data_dict, min_days)

/-- Rows of a spot series observed on day `d`, in series order. -/
def dayObs (rows : List (ℤ × ℚ)) (d : ℤ) : List (ℤ × ℚ) :=
  rows.filter (fun r => decide (dayOf r.1 = d))

/-- Rows of a merged futures series observed on day `d`. -/
def dayObsF (rows : List (ℤ × ℚ × Option ℚ)) (d : ℤ) :
    List (ℤ × ℚ × Option ℚ) :=
  rows.filter (fun r => decide (dayOf r.1 = d))

/-- The day index produced by `resample("D")`: every calendar day from
the first to the last observed day. -/
def obsDayRange (ts : List ℤ) : List ℤ :=
  match ts.map dayOf with
  | [] => []
  | d :: ds => dateRange ((d :: ds).foldl min d) ((d :: ds).foldl max d)

/-- Daily resample of a spot series: last close of each day, empty days
dropped (`resample("D")["close"].last()` followed by `dropna()`). -/
def resampleSpot (rows : List (ℤ × ℚ)) : List (ℤ × ℚ) :=
  (obsDayRange (rows.map (fun r => r.1))).filterMap (fun d =>
    ((dayObs rows d).getLast?).map (fun r => (d, r.2)))

/-- Daily resample of a merged futures series: last mark price and mean
observed funding rate of each day; a day with no mark observation, or
whose funding observations are all missing, is dropped by `dropna()`. -/
def resampleFutures (rows : List (ℤ × ℚ × Option ℚ)) :
    List (ℤ × ℚ × ℚ) :=
  (obsDayRange (rows.map (fun r => r.1))).filterMap (fun d =>
    match (dayObsF rows d).getLast? with
    | none => none
    | some last =>
      let fvals := (dayObsF rows d).filterMap (fun r => r.2.2)
      if fvals.isEmpty then none
      else some (d, last.2.1, fvals.sum / (fvals.length : ℚ)))

/-- `resample_to_daily`: empty per-asset frames are skipped. -/
def resample_to_daily (spot : List (String × List (ℤ × ℚ)))
    (futures : List (String × List (ℤ × ℚ × Option ℚ))) :
    List (String × List (ℤ × ℚ)) × List (String × List (ℤ × ℚ × ℚ)) :=
  (spot.filterMap (fun p =>
     if p.2.isEmpty then none else some (p.1, resampleSpot p.2)),
   futures.filterMap (fun p =>
     if p.2.isEmpty then none else some (p.1, resampleFutures p.2)))

/-- Fetch oracle of the C10 counterexample: asset A has two spot candles
(hours 0 and 24), asset B has one mark candle (hour 48) and an empty
funding series; everything else is empty. -/
def cexDb : Database where
  get_ohlcv_data := fun a _ _ =>
    if a = "A" then .ok [((0 : ℤ), (10 : ℚ)), (24, 11)] else .ok []
  get_mark_klines := fun a _ _ =>
    if a = "B" then .ok [((48 : ℤ), (105 : ℚ))] else .ok []
  get_funding_rates := fun _ _ _ => .ok []

/-! ### Alert dashboard (`backend/src/analysis/graph.py`,
`calculate_alert_dashboard`)

`risk_metrics.get("portfolio_volatility_annual", 0)` and
`risk_metrics.get("sharpe_ratio", 0)` are passed as the `volatility` and
`sharpe` arguments (the upstream risk-metrics dict always carries both
keys).  `round(x, 1)` is modelled by `round1`. -/

/-- Python's `round(x, 1)`.  Mathlib's `round` resolves exact halves
upward while Python's float `round` resolves them to the even digit; the
two agree everywhere else, and no verified property depends on the tie
direction. -/
def round1 (q : ℚ) : ℚ := ((round (10 * q) : ℤ) : ℚ) / 10

/-- The status ladder shared by the delta, volatility and leverage
components (applied to the unrounded score). -/
def statusLadder (score : ℚ) : String :=
  if score ≥ 18 then "good"
  else if score ≥ 10 then "fair"
  else if score ≥ 5 then "warning"
  else "poor"

/-- Delta-neutrality score and status: full marks at most 5% normalized
delta, linear to 0 at 50%. -/
def deltaScoreStatus (delta_normalized : ℚ) : ℚ × String :=
  if delta_normalized ≤ 0.05 then (25, "excellent")
  else if delta_normalized ≤ 0.5 then
    (max 0 (25 - ((delta_normalized - 0.05) / 0.45) * 25),
     statusLadder (max 0 (25 - ((delta_normalized - 0.05) / 0.45) * 25)))
  else (0, "poor")

/-- Volatility score and status: full marks at most 30% annualized,
linear to 0 at 100%. -/
def volScoreStatus (volatility : ℚ) : ℚ × String :=
  if volatility ≤ 0.3 then (25, "excellent")
  else if volatility ≤ 1.0 then
    (max 0 (25 - ((volatility - 0.3) / 0.7) * 25),
     statusLadder (max 0 (25 - ((volatility - 0.3) / 0.7) * 25)))
  else (0, "poor")

/-- Sharpe score and status: the fixed neutral score 12.5 when the
portfolio is market-neutral (strictly below 5% normalized delta),
otherwise tiered by the Sharpe ratio. -/
def sharpeScoreStatus (sharpe delta_normalized : ℚ) : ℚ × String :=
  if delta_normalized < 0.05 then (12.5, "fair")
  else if sharpe ≥ 1.0 then (25, "excellent")
  else if sharpe ≥ 0.5 then (18 + ((sharpe - 0.5) / 0.5) * 7, "good")
  else if sharpe ≥ 0.0 then (10 + (sharpe / 0.5) * 8, "fair")
  else if sharpe ≥ -0.5 then (5 + ((sharpe + 0.5) / 0.5) * 5, "warning")
  else (0, "poor")

/-- `max((pos.get("leverage", 1.0) for pos in positions), default=1.0)`:
the default applies only to an empty position list. -/
def maxLeverage (positions : List Position) : ℚ :=
  match positions.map (fun p => p.leverage.getD 1) with
  | [] => 1
  | l :: ls => (l :: ls).foldl max l

/-- Leverage score and status: full marks at most 2x, linear to 0 at
20x. -/
def levScoreStatus (max_leverage : ℚ) : ℚ × String :=
  if max_leverage ≤ 2 then (25, "excellent")
  else if max_leverage ≤ 20 then
    (max 0 (25 - ((max_leverage - 2) / 18) * 25),
     statusLadder (max 0 (25 - ((max_leverage - 2) / 18) * 25)))
  else (0, "poor")

structure HealthComponent where
  score : ℚ
  status : String
deriving DecidableEq

structure LiquidationEntry where
  asset : String
  position_type : String
  liquidation_price : ℚ
  current_price : ℚ
  price_distance_pct : ℚ
  risk_level : String
deriving DecidableEq

/-- One iteration of the liquidation loop: a position is assessed when it
is a futures position with leverage above 1.  The current price is the
composite-key lookup with the entry price as fallback (this loop has no
bare-asset fallback); the reported distance is the absolute value, while
the risk level thresholds compare the signed distance. -/
def assessLiquidation (current_prices : PriceMap) (p : Position) :
    Option LiquidationEntry :=
  if (p.position_type = "futures_long" ∨ p.position_type = "futures_short") ∧
      1 < p.leverage.getD 1 then
    let leverage := p.leverage.getD 1
    let entry_price := p.entry_price
    let current_price := (pmGet current_prices
      (.composite p.asset p.position_type)).getD entry_price
    let lp_dist : ℚ × ℚ :=
      if p.position_type = "futures_long" then
        (entry_price * (1 - 0.9 / leverage),
         ((current_price - entry_price * (1 - 0.9 / leverage)) /
           current_price) * 100)
      else
        (entry_price * (1 + 0.9 / leverage),
         ((entry_price * (1 + 0.9 / leverage) - current_price) /
           current_price) * 100)
    some { asset := p.asset
         , position_type := p.position_type
         , liquidation_price := lp_dist.1
         , current_price := current_price
         , price_distance_pct := |lp_dist.2|
         , risk_level :=
             if lp_dist.2 > 50 then "safe"
             else if lp_dist.2 > 25 then "moderate"
             else "high" }
  else none

/-- The signed price-distance percentage used by the risk-level
thresholds (`price_distance_pct` stores its absolute value). -/
def liqDistance (current_prices : PriceMap) (p : Position) : ℚ :=
  let leverage := p.leverage.getD 1
  let current_price := (pmGet current_prices
    (.composite p.asset p.position_type)).getD p.entry_price
  if p.position_type = "futures_long" then
    ((current_price - p.entry_price * (1 - 0.9 / leverage)) /
      current_price) * 100
  else
    ((p.entry_price * (1 + 0.9 / leverage) - current_price) /
      current_price) * 100

/-- The liquidation loop over all positions, in order. -/
def liquidationRisks (positions : List Position)
    (current_prices : PriceMap) : List LiquidationEntry :=
  positions.filterMap (assessLiquidation current_prices)

/-- Overall liquidation risk: `"low"` unless some assessed position is
high (then `"high"`) or moderate (then `"moderate"`). -/
def overallLiquidationRisk (risks : List LiquidationEntry) : String :=
  if risks.isEmpty then "low"
  else if risks.any (fun r => decide (r.risk_level = "high")) then "high"
  else if risks.any (fun r => decide (r.risk_level = "moderate")) then
    "moderate"
  else "low"

/-- Spec-side severity order of risk levels, `"safe"` and `"low"` both
ranking lowest. -/
def levelRank (level : String) : ℕ :=
  if level = "high" then 2 else if level = "moderate" then 1 else 0

def rebalancingUrgency (delta_normalized : ℚ) : String :=
  if delta_normalized > 0.15 then "high"
  else if delta_normalized > 0.05 then "medium"
  else "none"

structure AlertDashboard where
  health_score : ℚ
  delta_neutral : HealthComponent
  volatility : HealthComponent
  sharpe_ratio : HealthComponent
  leverage : HealthComponent
  liquidation_overall_risk : String
  liquidation_positions : List LiquidationEntry
  rebalancing_needed : Bool
  rebalancing_urgency : String
  current_delta : ℚ
  delta_normalized : ℚ
deriving DecidableEq

/-- `calculate_alert_dashboard`: each component's stored score is
`round(score, 1)`; the health score is the sum of the four stored
scores. -/
def calculate_alert_dashboard (volatility sharpe current_value : ℚ)
    (positions : List Position) (current_prices : PriceMap)
    (delta_exposure : ℚ) : AlertDashboard :=
  let delta_normalized :=
    if 0 < current_value then |delta_exposure| / current_value else 0
  let dc : HealthComponent :=
    ⟨round1 (deltaScoreStatus delta_normalized).1,
     (deltaScoreStatus delta_normalized).2⟩
  let vc : HealthComponent :=
    ⟨round1 (volScoreStatus volatility).1, (volScoreStatus volatility).2⟩
  let sc : HealthComponent :=
    ⟨round1 (sharpeScoreStatus sharpe delta_normalized).1,
     (sharpeScoreStatus sharpe delta_normalized).2⟩
  let lc : HealthComponent :=
    ⟨round1 (levScoreStatus (maxLeverage positions)).1,
     (levScoreStatus (maxLeverage positions)).2⟩
  let risks := liquidationRisks positions current_prices
  { health_score := dc.score + vc.score + sc.score + lc.score
  , delta_neutral := dc
  , volatility := vc
  , sharpe_ratio := sc
  , leverage := lc
  , liquidation_overall_risk := overallLiquidationRisk risks
  , liquidation_positions := risks
  , rebalancing_needed := decide (delta_normalized > 0.05)
  , rebalancing_urgency := rebalancingUrgency delta_normalized
  , current_delta := delta_exposure
  , delta_normalized := delta_normalized }

/-! ### Risk-profile orchestration (`riskprofile.py`, `calculate_risk_profile`)

The `metrics` and `scenarios` modules and `src.config.settings` are
imported collaborators that are not among the analysed sources; following
the spec they are modelled as parameter records of total functions
(§4.3 and §7 require every estimator to be total on degenerate inputs,
§4.5 requires the scenario engine to be deterministic and
side-effect-free).  No verified property depends on their values. -/

/-- The value checks of `_validate_positions` on an already-well-formed
position record (the presence checks are enforced by the `Position` type;
`validate_positions` on `RawPosition` is the full model). -/
def validate_positions_typed (positions : List Position) : Bool :=
  decide (positions ≠ []) && decide (positions.length ≤ 20) &&
    positions.all (fun p =>
      (decide (p.position_type = "spot") ||
        decide (p.position_type = "futures_long") ||
        decide (p.position_type = "futures_short")) &&
      decide (0 < p.quantity) && decide (0 < p.entry_price) &&
      (decide (0 < p.leverage.getD 1) && decide (p.leverage.getD 1 ≤ 125)))

/-- Column carrying a position's current price: spot close for spot
positions, futures mark price otherwise. -/
def colName (p : Position) : String :=
  if p.position_type = "spot" then p.asset ++ "_spot"
  else p.asset ++ "_futures_mark"

/-- `col_name in aligned_data.columns` plus the column itself. -/
def tableGetCol (t : AlignedTable) (name : String) :
    Option (List (Option ℚ)) :=
  (t.columns.find? (fun c => decide (c.1 = name))).map (fun c => c.2)

/-- `float(row[col_name])` for row `i`: cannot raise; a missing cell
would flow through pandas as NaN, which `ℚ` cannot carry — alignment
leaves no missing cells (claim C6), so the 0 fallback is never exercised
on the verified paths. -/
def cellAt (col : List (Option ℚ)) (i : Nat) : ℚ :=
  ((col.get? i).getD none).getD 0

/-- `float(latest_row[col_name])` (`aligned_data.iloc[-1]`). -/
def lastCell (col : List (Option ℚ)) : ℚ :=
  (col.getLast?.getD none).getD 0

/-- `_extract_current_prices`: composite-keyed price of every position
from the last aligned row; fails with MissingPrice when a position's
required column is absent.  (Duplicate keys map to the same column, so
first-match lookup agrees with the dict's last-write semantics.) -/
def extract_current_prices (t : AlignedTable) :
    List Position → Except Err PriceMap
  | [] => .ok []
  | p :: rest =>
    match tableGetCol t (colName p) with
    | none => .error .missingPrice
    | some col =>
      match extract_current_prices t rest with
      | .error e => .error e
      | .ok m => .ok ((.composite p.asset p.position_type, lastCell col) :: m)

/-- The per-row price dict of `_calculate_historical_portfolio_series`:
positions whose column is absent are silently skipped. -/
def rowPrices (t : AlignedTable) (positions : List Position) (i : Nat) :
    PriceMap :=
  positions.foldr (fun p acc =>
    match tableGetCol t (colName p) with
    | none => acc
    | some col => (.composite p.asset p.position_type, cellAt col i) :: acc) []

/-- The row loop of `_calculate_historical_portfolio_series`: a row with
an empty price dict is skipped (`if prices:`), any other row is valued in
full. -/
def historicalAux (t : AlignedTable) (positions : List Position) :
    List Nat → Except Err (List ℚ)
  | [] => .ok []
  | i :: rest =>
    if (rowPrices t positions i).isEmpty then historicalAux t positions rest
    else
      match calculate_portfolio_value positions (rowPrices t positions i) with
      | .error e => .error e
      | .ok v =>
        match historicalAux t positions rest with
        | .error e => .error e
        | .ok vs => .ok (v :: vs)

/-- Historical portfolio values: one valuation per aligned row. -/
def historical_portfolio_values (t : AlignedTable)
    (positions : List Position) : Except Err (List ℚ) :=
  historicalAux t positions (List.range t.timestamps.length)

abbrev CorrMatrix := List ((String × String) × ℚ)

/-- Modelled from the spec: the `metrics` estimator module (§4.3) is not
among the analysed sources; each estimator is a total function with
defined defaults on degenerate inputs, which the function types capture.
`quantile` stands for `np.quantile` on a non-empty sample. -/
structure MetricsImpl where
  calculate_returns : List ℚ → List ℚ
  calculate_volatility : List ℚ → Bool → ℚ → ℚ
  calculate_var_historical : List ℚ → ℚ → ℚ → ℚ
  calculate_cvar : List ℚ → ℚ → ℚ → ℚ
  calculate_sharpe_ratio : List ℚ → ℚ → ℚ → ℚ
  calculate_max_drawdown : List ℚ → ℚ
  calculate_correlation_matrix : List (String × List ℚ) → CorrMatrix
  calculate_portfolio_variance :
    List (Position × ℚ) → List (String × List ℚ) → CorrMatrix → ℚ
  quantile : List ℚ → ℚ → ℚ

structure ScenarioResult where
  name : String
  description : String
  portfolio_value : ℚ
  pnl : ℚ
  return_pct : ℚ
deriving DecidableEq

/-- Modelled from the spec: `scenarios.run_all_scenarios` (§4.5) applies
a fixed catalogue of shocks to the already-extracted current prices,
deterministically and without side effects. -/
structure ScenariosImpl where
  run_all_scenarios : List Position → PriceMap → List ScenarioResult

/-- Modelled from the spec: `src.config.settings` (the sensitivity shock
catalogue, in percent, and the risk-free rate). -/
structure Settings where
  SENSITIVITY_RANGE : List ℚ
  RISK_FREE_RATE : ℚ

/-- The risk-metrics bundle; `delta_exposure` is `none` until the
orchestrator adds the key in its step 9. -/
structure RiskMetricsOut where
  lookback_days_used : ℤ
  portfolio_variance : ℚ
  portfolio_volatility_annual : ℚ
  var_95_1day : ℚ
  var_99_1day : ℚ
  cvar_95 : ℚ
  sharpe_ratio : ℚ
  max_drawdown : ℚ
  correlation_matrix : CorrMatrix
  delta_exposure : Option ℚ

structure RiskProfileResponse where
  current_portfolio_value : ℚ
  data_availability_warning : Option String
  sensitivity_analysis : List SensRow
  risk_metrics : RiskMetricsOut
  scenarios : List ScenarioResult

/-- `list(set(...))` over asset names, modelled as first-occurrence
deduplication (the set's iteration order is unspecified; nothing verified
depends on it). -/
def dedupFirst (l : List String) : List String :=
  l.foldl (fun acc x => if x ∈ acc then acc else acc ++ [x]) []

/-- `_calculate_asset_returns`: per unique asset, returns over the spot
column if present, else over the futures-mark column, else skipped. -/
def calculate_asset_returns (impl : MetricsImpl)
    (positions : List Position) (t : AlignedTable) :
    List (String × List ℚ) :=
  (dedupFirst (positions.map (fun p => p.asset))).filterMap (fun asset =>
    match tableGetCol t (asset ++ "_spot") with
    | some col =>
      some (asset, impl.calculate_returns (col.map (fun c => c.getD 0)))
    | none =>
      match tableGetCol t (asset ++ "_futures_mark") with
      | some col =>
        some (asset, impl.calculate_returns (col.map (fun c => c.getD 0)))
      | none => none)

/-- The `positions_with_values` loop of `_calculate_risk_metrics`. -/
def positions_with_values (current_prices : PriceMap) :
    List Position → Except Err (List (Position × ℚ))
  | [] => .ok []
  | p :: rest =>
    match calculate_position_value p current_prices with
    | .error e => .error e
    | .ok v =>
      match positions_with_values current_prices rest with
      | .error e => .error e
      | .ok l => .ok ((p, v) :: l)

/-- `_calculate_risk_metrics`. -/
def calculate_risk_metrics (impl : MetricsImpl) (settings : Settings)
    (portfolio_returns portfolio_values : List ℚ) (current_value : ℚ)
    (actual_days : ℤ) (positions : List Position) (t : AlignedTable) :
    Except Err RiskMetricsOut :=
  let volatility := impl.calculate_volatility portfolio_returns true 365
  let var_95 :=
    impl.calculate_var_historical portfolio_returns 0.95 current_value
  let var_99 :=
    impl.calculate_var_historical portfolio_returns 0.99 current_value
  let var_95_threshold :=
    if 0 < portfolio_returns.length then impl.quantile portfolio_returns 0.05
    else 0
  let cvar_95 :=
    impl.calculate_cvar portfolio_returns var_95_threshold current_value
  let sharpe := impl.calculate_sharpe_ratio portfolio_returns
    settings.RISK_FREE_RATE 365
  let max_dd := impl.calculate_max_drawdown portfolio_values
  let asset_returns := calculate_asset_returns impl positions t
  let corr_matrix := impl.calculate_correlation_matrix asset_returns
  match extract_current_prices t positions with
  | .error e => .error e
  | .ok current_prices =>
    match positions_with_values current_prices positions with
    | .error e => .error e
    | .ok pwv =>
      .ok { lookback_days_used := actual_days
          , portfolio_variance :=
              impl.calculate_portfolio_variance pwv asset_returns corr_matrix
          , portfolio_volatility_annual := volatility
          , var_95_1day := var_95
          , var_99_1day := var_99
          , cvar_95 := cvar_95
          , sharpe_ratio := sharpe
          , max_drawdown := max_dd
          , correlation_matrix := corr_matrix
          , delta_exposure := none }

/-- The low-data warning text. -/
def daysWarning (actual_days : ℤ) : String :=
  "Warning: Only " ++ toString actual_days ++
    " days of data available (recommended: 30+). Risk metrics may be unreliable."

/-- `"; ".join(...)`. -/
def joinSemicolon : List String → String
  | [] => ""
  | [w] => w
  | w :: rest => w ++ "; " ++ joinSemicolon rest

/-- `calculate_risk_profile`: validation, fetch, low-data warning,
resample, align, warning merge, price extraction, valuation, historical
series, sensitivity, risk metrics, delta exposure, scenarios, response
assembly — in the source's order. -/
def calculate_risk_profile (impl : MetricsImpl) (scen : ScenariosImpl)
    (settings : Settings) (db : Database) (now : ℤ)
    (positions : List Position) (lookback_days : ℤ) :
    Except Err RiskProfileResponse :=
  if validate_positions_typed positions = false then .error .invalidPortfolio
  else
    let assets := dedupFirst (positions.map (fun p => p.asset))
    let fetched := fetch_portfolio_data db now assets lookback_days
    let actual_days := fetched.2.2
    let data_warning : Option String :=
      if actual_days < 30 then some (daysWarning actual_days) else none
    let daily := resample_to_daily fetched.1 fetched.2.1
    match align_time_series daily.1 daily.2 with
    | .error e => .error e
    | .ok (aligned, alignment_warnings) =>
      let data_warning2 :=
        if alignment_warnings.isEmpty then data_warning
        else
          match data_warning with
          | some w => some (w ++ " | " ++ joinSemicolon alignment_warnings)
          | none => some (joinSemicolon alignment_warnings)
      match extract_current_prices aligned positions with
      | .error e => .error e
      | .ok current_prices =>
        match calculate_portfolio_value positions current_prices with
        | .error e => .error e
        | .ok current_value =>
          match historical_portfolio_values aligned positions with
          | .error e => .error e
          | .ok portfolio_values =>
            let portfolio_returns := impl.calculate_returns portfolio_values
            let sensitivity_range :=
              settings.SENSITIVITY_RANGE.map (fun x => x / 100)
            match calculate_sensitivity_table positions current_prices
                sensitivity_range with
            | .error e => .error e
            | .ok sensitivity_table =>
              match calculate_risk_metrics impl settings portfolio_returns
                  portfolio_values current_value actual_days positions
                  aligned with
              | .error e => .error e
              | .ok rm =>
                let delta := calculate_delta_exposure positions
                let rm2 : RiskMetricsOut :=
                  { rm with delta_exposure := some delta }
                .ok { current_portfolio_value := current_value
                    , data_availability_warning := data_warning2
                    , sensitivity_analysis := sensitivity_table
                    , risk_metrics := rm2
                    , scenarios :=
                        scen.run_all_scenarios positions current_prices }

/-- The value the orchestrator's warning logic assigns (the low-data
warning merged with the joined alignment warnings); definitionally the
`data_warning2` of `calculate_risk_profile`. -/
def mergedDataWarning (actual_days : ℤ) (alignment_warnings : List String) :
    Option String :=
  let data_warning : Option String :=
    if actual_days < 30 then some (daysWarning actual_days) else none
  if alignment_warnings.isEmpty then data_warning
  else
    match data_warning with
    | some w => some (w ++ " | " ++ joinSemicolon alignment_warnings)
    | none => some (joinSemicolon alignment_warnings)

/-- Extracts the warning field of a successful response. -/
def responseWarning (x : Except Err RiskProfileResponse) :
    Option (Option String) :=
  match x with
  | .ok r => some r.data_availability_warning
  | .error _ => none

/-- Trivial estimator instantiation used by concrete runs. -/
def trivMetrics : MetricsImpl where
  calculate_returns := fun _ => []
  calculate_volatility := fun _ _ _ => 0
  calculate_var_historical := fun _ _ _ => 0
  calculate_cvar := fun _ _ _ => 0
  calculate_sharpe_ratio := fun _ _ _ => 0
  calculate_max_drawdown := fun _ => 0
  calculate_correlation_matrix := fun _ => []
  calculate_portfolio_variance := fun _ _ _ => 0
  quantile := fun _ _ => 0

/-- Trivial scenario instantiation used by concrete runs. -/
def trivScen : ScenariosImpl where
  run_all_scenarios := fun _ _ => []

/-- Fetch oracle of the C7 counterexample: asset C has futures data only
(mark candles at hours 48, 96, 144 — five aligned days), no spot data. -/
def cexDb7 : Database where
  get_ohlcv_data := fun _ _ _ => .ok []
  get_mark_klines := fun a _ _ =>
    if a = "C" then .ok [((48 : ℤ), (100 : ℚ)), (96, 100), (144, 90)]
    else .ok []
  get_funding_rates := fun a _ _ =>
    if a = "C" then .ok [((48 : ℤ), (0 : ℚ)), (96, 0), (144, 0)]
    else .ok []

/-- A column in which no missing value ever follows a present value (the
shape a forward fill produces). -/
inductive NoSomeBeforeNone : List (Option ℚ) → Prop where
  | nil : NoSomeBeforeNone []
  | none_cons {t} : NoSomeBeforeNone t → NoSomeBeforeNone (none :: t)
  | some_cons {v : ℚ} {t} : (∀ x ∈ t, x.isSome = true) →
      NoSomeBeforeNone (some v :: t)

/-! ## Theorems -/

/-! ### Helper lemmas: valuation -/

theorem foldl_add_shift (g : Position → ℚ) (step : ℚ → Position → ℚ)
    (hstep : ∀ a p, step a p = a + g p) :
    ∀ (ps : List Position) (a : ℚ), ps.foldl step a = a + (ps.map g).sum
  | [], a => by simp
  | p :: ps, a => by
    simp only [List.foldl_cons, List.map_cons, List.sum_cons, hstep]
    rw [foldl_add_shift g step hstep ps (a + g p)]
    ring

theorem delta_step (a : ℚ) (p : Position) :
    (if p.position_type = "spot" then a + p.quantity
     else if p.position_type = "futures_long" then a + p.quantity
     else if p.position_type = "futures_short" then a - p.quantity
     else a) = a + signedQuantity p := by
  unfold signedQuantity
  by_cases h1 : p.position_type = "spot"
  · simp [h1]
  · by_cases h2 : p.position_type = "futures_long"
    · simp [h1, h2]
    · by_cases h3 : p.position_type = "futures_short"
      · simp [h1, h2, h3, sub_eq_add_neg]
      · simp [h1, h2, h3]

theorem delta_eq_sum (ps : List Position) :
    calculate_delta_exposure ps = (ps.map signedQuantity).sum := by
  unfold calculate_delta_exposure
  rw [foldl_add_shift signedQuantity _ (fun a p => delta_step a p) ps 0, zero_add]

theorem valueAtPrice_ne_missingPrice (p : Position) (c : ℚ) :
    valueAtPrice p c ≠ .error .missingPrice := by
  unfold valueAtPrice
  split_ifs <;> simp

theorem apply_price_shock_zero (m : PriceMap) : apply_price_shock m 0 = m := by
  simp [apply_price_shock]

/-- Shape of a successful `sensRows` run: one row per shock, in shock
order, with the stated fields. -/
theorem sensRows_spec (positions : List Position) (base_prices : PriceMap)
    (base_value : ℚ) :
    ∀ (range : List ℚ) (rows : List SensRow),
      sensRows positions base_prices base_value range = .ok rows →
      rows.length = range.length ∧
      ∀ (i : ℕ) (hi : i < rows.length) (hs : i < range.length),
        (rows.get ⟨i, hi⟩).price_change_pct = range.get ⟨i, hs⟩ * 100 ∧
        ∃ sv, calculate_portfolio_value positions
            (apply_price_shock base_prices (range.get ⟨i, hs⟩)) = .ok sv ∧
          (rows.get ⟨i, hi⟩).portfolio_value = sv ∧
          (rows.get ⟨i, hi⟩).pnl = sv - base_value
  | [], rows, h => by
    unfold sensRows at h
    cases h
    exact ⟨rfl, fun i hi hs => absurd hs (by simp)⟩
  | shock :: rest, rows, h => by
    unfold sensRows at h
    cases hpv : calculate_portfolio_value positions
        (apply_price_shock base_prices shock) with
    | error e => rw [hpv] at h; cases h
    | ok sv =>
      rw [hpv] at h
      cases hrec : sensRows positions base_prices base_value rest with
      | error e => rw [hrec] at h; cases h
      | ok tailRows =>
        rw [hrec] at h
        cases h
        obtain ⟨hlen, htail⟩ :=
          sensRows_spec positions base_prices base_value rest tailRows hrec
        refine ⟨by simp [hlen], ?_⟩
        intro i hi hs
        cases i with
        | zero => exact ⟨rfl, sv, hpv, rfl, rfl⟩
        | succ j =>
          exact htail j (by simpa using hi) (by simpa using hs)

/-! ### Helper lemmas: gap filling -/

theorem changedCount_cons (a b : Option ℚ) (l m : List (Option ℚ)) :
    changedCount (a :: l) (b :: m) =
      changedCount l m + (if a ≠ b then 1 else 0) := by
  unfold changedCount
  rw [List.zip_cons_cons, List.countP_cons]
  simp

theorem countNone_cons (a : Option ℚ) (l : List (Option ℚ)) :
    countNone (a :: l) = countNone l + (if a.isNone then 1 else 0) := by
  unfold countNone
  rw [List.countP_cons]

theorem ffillAux_some_allSome (v : ℚ) :
    ∀ l, ∀ x ∈ ffillAux (some v) l, x.isSome = true
  | [], x, hx => by cases hx
  | none :: rest, x, hx => by
    unfold ffillAux at hx
    rcases List.mem_cons.mp hx with rfl | hx
    · rfl
    · exact ffillAux_some_allSome v rest x hx
  | some w :: rest, x, hx => by
    unfold ffillAux at hx
    rcases List.mem_cons.mp hx with rfl | hx
    · rfl
    · exact ffillAux_some_allSome w rest x hx

theorem ffill_nsbn : ∀ l, NoSomeBeforeNone (ffill l)
  | [] => .nil
  | none :: rest => .none_cons (ffill_nsbn rest)
  | some v :: rest => .some_cons (ffillAux_some_allSome v rest)

theorem firstSome_isSome :
    ∀ l, (∃ x ∈ l, x.isSome = true) → (firstSome l).isSome = true
  | [], h => by simp at h
  | none :: rest, h => by
    refine firstSome_isSome rest ?_
    obtain ⟨x, hx, hs⟩ := h
    rcases List.mem_cons.mp hx with rfl | hx
    · cases hs
    · exact ⟨x, hx, hs⟩
  | some v :: rest, _ => rfl

theorem ffillAux_exists_some (c : Option ℚ) :
    ∀ l, (∃ x ∈ l, x.isSome = true) →
      ∃ x ∈ ffillAux c l, x.isSome = true
  | [], h => by simp at h
  | none :: rest, h => by
    have hrest : ∃ x ∈ rest, x.isSome = true := by
      obtain ⟨x, hx, hs⟩ := h
      rcases List.mem_cons.mp hx with rfl | hx
      · cases hs
      · exact ⟨x, hx, hs⟩
    obtain ⟨x, hx, hs⟩ := ffillAux_exists_some c rest hrest
    exact ⟨x, List.mem_cons_of_mem _ hx, hs⟩
  | some v :: rest, _ =>
    ⟨some v, List.mem_cons_self _ _, rfl⟩

theorem bfill_of_allSome :
    ∀ l, (∀ x ∈ l, x.isSome = true) → bfill l = l
  | [], _ => rfl
  | none :: _, h => by
    have := h none (List.mem_cons_self _ _)
    cases this
  | some v :: rest, h => by
    unfold bfill
    rw [bfill_of_allSome rest (fun x hx => h x (List.mem_cons_of_mem _ hx))]

theorem bfill_allSome {l : List (Option ℚ)} (h : NoSomeBeforeNone l) :
    (∃ x ∈ l, x.isSome = true) → ∀ x ∈ bfill l, x.isSome = true := by
  induction h with
  | nil => intro _ x hx; cases hx
  | none_cons ht ih =>
    rename_i t
    intro hex x hx
    have hrest : ∃ y ∈ t, y.isSome = true := by
      obtain ⟨y, hy, hs⟩ := hex
      rcases List.mem_cons.mp hy with rfl | hy
      · cases hs
      · exact ⟨y, hy, hs⟩
    unfold bfill at hx
    rcases List.mem_cons.mp hx with rfl | hx
    · exact firstSome_isSome t hrest
    · exact ih hrest x hx
  | some_cons hall =>
    rename_i v t
    intro _ x hx
    unfold bfill at hx
    rw [bfill_of_allSome t hall] at hx
    rcases List.mem_cons.mp hx with rfl | hx
    · rfl
    · exact hall x hx

theorem countNone_eq_zero {l : List (Option ℚ)} :
    countNone l = 0 ↔ ∀ x ∈ l, x.isSome = true := by
  unfold countNone
  rw [List.countP_eq_zero]
  constructor
  · intro h x hx
    have := h x hx
    cases x
    · simp at this
    · rfl
  · intro h x hx
    have := h x hx
    cases x
    · cases this
    · simp

theorem changedCount_self : ∀ l : List (Option ℚ), changedCount l l = 0
  | [] => rfl
  | a :: rest => by
    rw [changedCount_cons, changedCount_self rest]
    simp

theorem changedCount_bfill :
    ∀ l, (∀ x ∈ bfill l, x.isSome = true) →
      changedCount l (bfill l) = countNone l
  | [], _ => rfl
  | some v :: rest, h => by
    have htail : ∀ x ∈ bfill rest, x.isSome = true := fun x hx =>
      h x (by unfold bfill; exact List.mem_cons_of_mem _ hx)
    rw [show bfill (some v :: rest) = some v :: bfill rest from rfl,
      changedCount_cons, countNone_cons, changedCount_bfill rest htail]
    simp
  | none :: rest, h => by
    have hhead : (firstSome rest).isSome = true :=
      h (firstSome rest) (by unfold bfill; exact List.mem_cons_self _ _)
    have htail : ∀ x ∈ bfill rest, x.isSome = true := fun x hx =>
      h x (by unfold bfill; exact List.mem_cons_of_mem _ hx)
    obtain ⟨w, hw⟩ := Option.isSome_iff_exists.mp hhead
    rw [show bfill (none :: rest) = firstSome rest :: bfill rest from rfl,
      changedCount_cons, countNone_cons, hw, changedCount_bfill rest htail]
    simp

theorem changedCount_fillZero :
    ∀ l : List (Option ℚ), changedCount l (fillZero l) = countNone l
  | [] => rfl
  | some v :: rest => by
    rw [show fillZero (some v :: rest) = some v :: fillZero rest from rfl,
      changedCount_cons, countNone_cons, changedCount_fillZero rest]
    simp
  | none :: rest => by
    rw [show fillZero (none :: rest) = some 0 :: fillZero rest from rfl,
      changedCount_cons, countNone_cons, changedCount_fillZero rest]
    simp

theorem fillZero_allSome (l : List (Option ℚ)) :
    ∀ x ∈ fillZero l, x.isSome = true := by
  intro x hx
  unfold fillZero at hx
  obtain ⟨o, _, rfl⟩ := List.mem_map.mp hx
  rfl

theorem mem_dateRange {lo hi t : ℤ} (h1 : lo ≤ t) (h2 : t ≤ hi) :
    t ∈ dateRange lo hi := by
  have hmem : (t - lo).toNat ∈ List.range (hi - lo + 1).toNat :=
    List.mem_range.mpr (by omega)
  unfold dateRange
  refine List.mem_map.mpr ⟨(t - lo).toNat, hmem, ?_⟩
  simp only [Int.ofNat_eq_natCast]
  omega

theorem foldl_min_le_init {α : Type} [LinearOrder α] :
    ∀ (l : List α) (a : α), l.foldl min a ≤ a
  | [], a => le_refl a
  | b :: t, a =>
    le_trans (foldl_min_le_init t (min a b)) (min_le_left a b)

theorem foldl_min_le {α : Type} [LinearOrder α] :
    ∀ (l : List α) (a x : α), x ∈ l → l.foldl min a ≤ x
  | [], _, _, hx => absurd hx (List.not_mem_nil _)
  | b :: t, a, x, hx => by
    rcases List.mem_cons.mp hx with rfl | hx
    · exact le_trans (foldl_min_le_init t _) (min_le_right _ _)
    · exact foldl_min_le t (min a b) x hx

theorem le_foldl_max_init {α : Type} [LinearOrder α] :
    ∀ (l : List α) (a : α), a ≤ l.foldl max a
  | [], a => le_refl a
  | b :: t, a =>
    le_trans (le_max_left a b) (le_foldl_max_init t (max a b))

theorem le_foldl_max {α : Type} [LinearOrder α] :
    ∀ (l : List α) (a x : α), x ∈ l → x ≤ l.foldl max a
  | [], _, _, hx => absurd hx (List.not_mem_nil _)
  | b :: t, a, x, hx => by
    rcases List.mem_cons.mp hx with rfl | hx
    · exact le_trans (le_max_right _ _) (le_foldl_max_init t _)
    · exact le_foldl_max t (max a b) x hx

theorem foldl_max_le {α : Type} [LinearOrder α] :
    ∀ (l : List α) (a b : α), a ≤ b → (∀ x ∈ l, x ≤ b) → l.foldl max a ≤ b
  | [], _, _, ha, _ => ha
  | x :: t, a, b, ha, h =>
    foldl_max_le t (max a x) b
      (max_le ha (h x (List.mem_cons_self _ _)))
      (fun y hy => h y (List.mem_cons_of_mem _ hy))

theorem lookupTs_isSome_of_mem {t : ℤ} {v : ℚ} {s : List (ℤ × ℚ)}
    (h : (t, v) ∈ s) : (lookupTs t s).isSome = true := by
  unfold lookupTs
  have hfind : (s.find? (fun r => decide (r.1 = t))).isSome = true := by
    rw [List.find?_isSome]
    exact ⟨(t, v), h, by simp⟩
  obtain ⟨r, hr⟩ := Option.isSome_iff_exists.mp hfind
  rw [hr]
  rfl

theorem ffilledColumn_exists_some {range : List ℤ} {s : List (ℤ × ℚ)}
    {t : ℤ} {v : ℚ} (hmem : (t, v) ∈ s) (ht : t ∈ range) :
    ∃ x ∈ ffilledColumn range s, x.isSome = true := by
  unfold ffilledColumn ffill
  refine ffillAux_exists_some none _ ?_
  exact ⟨lookupTs t s, List.mem_map.mpr ⟨t, ht, rfl⟩, lookupTs_isSome_of_mem hmem⟩

theorem ifBfill_allSome (col : List (Option ℚ)) (h : NoSomeBeforeNone col)
    (hex : ∃ x ∈ col, x.isSome = true) :
    ∀ x ∈ (if 0 < countNone col then bfill col else col), x.isSome = true := by
  split
  · exact bfill_allSome h hex
  · next hn =>
    have h0 : countNone col = 0 := by omega
    exact countNone_eq_zero.mp h0

theorem ifBfill_changed (col : List (Option ℚ)) (h : NoSomeBeforeNone col)
    (hex : ∃ x ∈ col, x.isSome = true) :
    changedCount col (if 0 < countNone col then bfill col else col) =
      countNone col := by
  split
  · exact changedCount_bfill col (bfill_allSome h hex)
  · next hn =>
    have h0 : countNone col = 0 := by omega
    rw [changedCount_self, h0]

theorem ifFillZero_allSome (col : List (Option ℚ)) :
    ∀ x ∈ (if 0 < countNone col then fillZero col else col),
      x.isSome = true := by
  split
  · exact fillZero_allSome col
  · next hn =>
    have h0 : countNone col = 0 := by omega
    exact countNone_eq_zero.mp h0

theorem ifFillZero_changed (col : List (Option ℚ)) :
    changedCount col (if 0 < countNone col then fillZero col else col) =
      countNone col := by
  split
  · exact changedCount_fillZero col
  · next hn =>
    have h0 : countNone col = 0 := by omega
    rw [changedCount_self, h0]

/-! ### Helper lemmas: alignment -/

theorem allSomeB_iff {l : List (Option ℚ)} :
    allSomeB l = true ↔ ∀ x ∈ l, x.isSome = true := by
  simp [allSomeB, List.all_eq_true]

theorem mem_allTimestamps_spot {spot : List (String × List (ℤ × ℚ))}
    {futures : List (String × List (ℤ × ℚ × ℚ))}
    {p : String × List (ℤ × ℚ)} {t : ℤ} {v : ℚ}
    (hp : p ∈ spot) (hr : (t, v) ∈ p.2) :
    t ∈ allTimestamps spot futures := by
  unfold allTimestamps
  refine List.mem_append.mpr (.inl ?_)
  exact List.mem_flatten.mpr ⟨p.2.map (fun r => r.1),
    List.mem_map.mpr ⟨p, hp, rfl⟩, List.mem_map.mpr ⟨(t, v), hr, rfl⟩⟩

theorem mem_allTimestamps_futures {spot : List (String × List (ℤ × ℚ))}
    {futures : List (String × List (ℤ × ℚ × ℚ))}
    {p : String × List (ℤ × ℚ × ℚ)} {t : ℤ} {r : ℚ × ℚ}
    (hp : p ∈ futures) (hr : (t, r) ∈ p.2) :
    t ∈ allTimestamps spot futures := by
  unfold allTimestamps
  refine List.mem_append.mpr (.inr ?_)
  exact List.mem_flatten.mpr ⟨p.2.map (fun x => x.1),
    List.mem_map.mpr ⟨p, hp, rfl⟩, List.mem_map.mpr ⟨(t, r), hr, rfl⟩⟩

theorem allTimestamps_nil_iff (spot : List (String × List (ℤ × ℚ)))
    (futures : List (String × List (ℤ × ℚ × ℚ))) :
    allTimestamps spot futures = [] ↔
      (∀ p ∈ spot, p.2 = []) ∧ (∀ p ∈ futures, p.2 = []) := by
  constructor
  · intro h
    constructor
    · intro p hp
      cases hq : p.2 with
      | nil => rfl
      | cons r rest =>
        exfalso
        have hmem : (r.1, r.2) ∈ p.2 := by
          rw [hq]; exact List.mem_cons_self _ _
        have ht : r.1 ∈ allTimestamps spot futures :=
          mem_allTimestamps_spot hp hmem
        rw [h] at ht
        cases ht
    · intro p hp
      cases hq : p.2 with
      | nil => rfl
      | cons r rest =>
        exfalso
        have hmem : (r.1, r.2) ∈ p.2 := by
          rw [hq]; exact List.mem_cons_self _ _
        have ht : r.1 ∈ allTimestamps spot futures :=
          mem_allTimestamps_futures hp hmem
        rw [h] at ht
        cases ht
  · rintro ⟨h1, h2⟩
    unfold allTimestamps
    rw [List.append_eq_nil]
    constructor
    · rw [List.flatten_eq_nil_iff]
      intro l hl
      obtain ⟨p, hp, rfl⟩ := List.mem_map.mp hl
      rw [h1 p hp]
      rfl
    · rw [List.flatten_eq_nil_iff]
      intro l hl
      obtain ⟨p, hp, rfl⟩ := List.mem_map.mp hl
      rw [h2 p hp]
      rfl

/-- Reduction of `align_time_series` when the timestamp union is
non-empty. -/
theorem align_time_series_cons (spot : List (String × List (ℤ × ℚ)))
    (futures : List (String × List (ℤ × ℚ × ℚ))) (t : ℤ) (ts : List ℤ)
    (hts : allTimestamps spot futures = t :: ts) :
    align_time_series spot futures =
      .ok ({ timestamps := dateRange ((t :: ts).foldl min t)
               ((t :: ts).foldl max t)
           , columns :=
               spot.map (fun p => (p.1 ++ "_spot",
                 spotFinalColumn (dateRange ((t :: ts).foldl min t)
                   ((t :: ts).foldl max t)) p.2)) ++
               (futures.map (fun p =>
                 [(p.1 ++ "_futures_mark", markFinalColumn
                     (dateRange ((t :: ts).foldl min t)
                       ((t :: ts).foldl max t)) p.2),
                  (p.1 ++ "_funding", fundingFinalColumn
                     (dateRange ((t :: ts).foldl min t)
                       ((t :: ts).foldl max t)) p.2)])).flatten }
         , (spot.map (fun p => spotWarnings p.1
             (dateRange ((t :: ts).foldl min t) ((t :: ts).foldl max t))
             p.2)).flatten ++
           (futures.map (fun p =>
             markWarnings p.1 (dateRange ((t :: ts).foldl min t)
               ((t :: ts).foldl max t)) p.2 ++
             fundingWarnings p.1 (dateRange ((t :: ts).foldl min t)
               ((t :: ts).foldl max t)) p.2)).flatten) := by
  unfold align_time_series
  rw [hts]

theorem spot_col_exists_some {spot : List (String × List (ℤ × ℚ))}
    {futures : List (String × List (ℤ × ℚ × ℚ))} {range : List ℤ}
    (hcover : ∀ x ∈ allTimestamps spot futures, x ∈ range)
    {p : String × List (ℤ × ℚ)} (hp : p ∈ spot) (hne : p.2 ≠ []) :
    ∃ x ∈ ffilledColumn range p.2, x.isSome = true := by
  obtain ⟨⟨t0, v0⟩, hmem⟩ := List.exists_mem_of_ne_nil _ hne
  exact ffilledColumn_exists_some hmem
    (hcover t0 (mem_allTimestamps_spot hp hmem))

theorem mark_col_exists_some {spot : List (String × List (ℤ × ℚ))}
    {futures : List (String × List (ℤ × ℚ × ℚ))} {range : List ℤ}
    (hcover : ∀ x ∈ allTimestamps spot futures, x ∈ range)
    {p : String × List (ℤ × ℚ × ℚ)} (hp : p ∈ futures) (hne : p.2 ≠ []) :
    ∃ x ∈ ffilledColumn range (markSeries p.2), x.isSome = true := by
  obtain ⟨⟨t0, r0⟩, hmem⟩ := List.exists_mem_of_ne_nil _ hne
  have hm : (t0, r0.1) ∈ markSeries p.2 :=
    List.mem_map.mpr ⟨(t0, r0), hmem, rfl⟩
  exact ffilledColumn_exists_some hm
    (hcover t0 (mem_allTimestamps_futures hp hmem))

/-! ### C6 -/

/-- C6: `align_time_series` fails (with NoDataAvailable) exactly when the
union of input timestamps is empty; on any non-empty set of non-empty
daily input series it succeeds, every produced column is fully populated,
the returned warnings are exactly the per-column warning lists in column
order, and for every column the number of values changed by the late fill
stage (back-fill, or the funding zero-default) equals the missing-value
count recorded in that column's warning (so each column with at least one
late-filled value contributes exactly one warning entry carrying the count
of its filled values, and a column with none contributes no warning). -/
theorem claim6_alignment (spot : List (String × List (ℤ × ℚ)))
    (futures : List (String × List (ℤ × ℚ × ℚ))) :
    ((∃ e, align_time_series spot futures = .error e) ↔
      allTimestamps spot futures = []) ∧
    (¬(spot = [] ∧ futures = []) →
      (∀ p ∈ spot, p.2 ≠ []) → (∀ p ∈ futures, p.2 ≠ []) →
      ∃ tbl warns, align_time_series spot futures = .ok (tbl, warns) ∧
        (∀ c ∈ tbl.columns, allSomeB c.2 = true) ∧
        warns =
          (spot.map (fun p => spotWarnings p.1 tbl.timestamps p.2)).flatten ++
          (futures.map (fun p => markWarnings p.1 tbl.timestamps p.2 ++
            fundingWarnings p.1 tbl.timestamps p.2)).flatten ∧
        (∀ p ∈ spot,
          changedCount (ffilledColumn tbl.timestamps p.2)
              (spotFinalColumn tbl.timestamps p.2) =
            countNone (ffilledColumn tbl.timestamps p.2) ∧
          (p.1 ++ "_spot", spotFinalColumn tbl.timestamps p.2) ∈
            tbl.columns) ∧
        (∀ p ∈ futures,
          changedCount (ffilledColumn tbl.timestamps (markSeries p.2))
              (markFinalColumn tbl.timestamps p.2) =
            countNone (ffilledColumn tbl.timestamps (markSeries p.2)) ∧
          changedCount (ffilledColumn tbl.timestamps (fundingSeries p.2))
              (fundingFinalColumn tbl.timestamps p.2) =
            countNone (ffilledColumn tbl.timestamps (fundingSeries p.2)) ∧
          (p.1 ++ "_futures_mark", markFinalColumn tbl.timestamps p.2) ∈
            tbl.columns ∧
          (p.1 ++ "_funding", fundingFinalColumn tbl.timestamps p.2) ∈
            tbl.columns)) := by
  constructor
  · constructor
    · rintro ⟨e, he⟩
      cases hts : allTimestamps spot futures with
      | nil => rfl
      | cons t ts =>
        rw [align_time_series_cons spot futures t ts hts] at he
        simp at he
    · intro hts
      refine ⟨.noDataAvailable, ?_⟩
      unfold align_time_series
      rw [hts]
  · intro hne hspot hfut
    cases hts : allTimestamps spot futures with
    | nil =>
      exfalso
      obtain ⟨hs, hf⟩ := (allTimestamps_nil_iff spot futures).mp hts
      have hs' : spot = [] := by
        cases spot with
        | nil => rfl
        | cons p rest =>
          exact absurd (hs p (List.mem_cons_self _ _))
            (hspot p (List.mem_cons_self _ _))
      have hf' : futures = [] := by
        cases futures with
        | nil => rfl
        | cons p rest =>
          exact absurd (hf p (List.mem_cons_self _ _))
            (hfut p (List.mem_cons_self _ _))
      exact hne ⟨hs', hf'⟩
    | cons t ts =>
      have hok := align_time_series_cons spot futures t ts hts
      have hcover : ∀ x ∈ allTimestamps spot futures,
          x ∈ dateRange ((t :: ts).foldl min t) ((t :: ts).foldl max t) := by
        intro x hx
        rw [hts] at hx
        exact mem_dateRange (foldl_min_le _ _ _ hx) (le_foldl_max _ _ _ hx)
      refine ⟨_, _, hok, ?_, rfl, ?_, ?_⟩
      · intro c hc
        rcases List.mem_append.mp hc with hc | hc
        · obtain ⟨p, hp, rfl⟩ := List.mem_map.mp hc
          rw [allSomeB_iff]
          exact ifBfill_allSome _ (ffill_nsbn _)
            (spot_col_exists_some hcover hp (hspot p hp))
        · obtain ⟨cl, hcl, hcmem⟩ := List.mem_flatten.mp hc
          obtain ⟨p, hp, rfl⟩ := List.mem_map.mp hcl
          rcases List.mem_cons.mp hcmem with rfl | hcmem
          · rw [allSomeB_iff]
            exact ifBfill_allSome _ (ffill_nsbn _)
              (mark_col_exists_some hcover hp (hfut p hp))
          · rcases List.mem_cons.mp hcmem with rfl | hcmem
            · rw [allSomeB_iff]
              exact ifFillZero_allSome _
            · cases hcmem
      · intro p hp
        refine ⟨ifBfill_changed _ (ffill_nsbn _)
          (spot_col_exists_some hcover hp (hspot p hp)), ?_⟩
        exact List.mem_append.mpr (.inl (List.mem_map.mpr ⟨p, hp, rfl⟩))
      · intro p hp
        refine ⟨ifBfill_changed _ (ffill_nsbn _)
          (mark_col_exists_some hcover hp (hfut p hp)),
          ifFillZero_changed _, ?_, ?_⟩
        · refine List.mem_append.mpr (.inr ?_)
          exact List.mem_flatten.mpr ⟨_,
            List.mem_map.mpr ⟨p, hp, rfl⟩, List.mem_cons_self _ _⟩
        · refine List.mem_append.mpr (.inr ?_)
          exact List.mem_flatten.mpr ⟨_,
            List.mem_map.mpr ⟨p, hp, rfl⟩,
            List.mem_cons_of_mem _ (List.mem_cons_self _ _)⟩

/-- Witness for C6: one spot asset (days 0 and 2) and one futures asset
(day 1 only), so the mark and funding columns each have one leading gap
and produce one warning each, while the spot column back-fills nothing. -/
theorem claim6_alignment_witness :
    align_time_series [("BTC", [((0 : ℤ), (100 : ℚ)), (2, 110)])]
        [("BTC", [((1 : ℤ), ((105 : ℚ), (2 : ℚ)))])] =
      .ok ({ timestamps := [0, 1, 2]
           , columns :=
               [("BTC_spot", [some 100, some 100, some 110]),
                ("BTC_futures_mark", [some 105, some 105, some 105]),
                ("BTC_funding", [some 0, some 2, some 2])] }
         , [markGapWarning "BTC" 1, fundingGapWarning "BTC" 1]) ∧
    allSomeB [some (0 : ℚ), some 2, some 2] = true ∧
    changedCount
        (ffilledColumn [0, 1, 2]
          (fundingSeries [((1 : ℤ), ((105 : ℚ), (2 : ℚ)))]))
        (fundingFinalColumn [0, 1, 2] [((1 : ℤ), ((105 : ℚ), (2 : ℚ)))]) =
      countNone
        (ffilledColumn [0, 1, 2]
          (fundingSeries [((1 : ℤ), ((105 : ℚ), (2 : ℚ)))])) := by
  obtain ⟨tbl, warns, hok, hall, hwarns, hsp, hfu⟩ :=
    (claim6_alignment [("BTC", [((0 : ℤ), (100 : ℚ)), (2, 110)])]
      [("BTC", [((1 : ℤ), ((105 : ℚ), (2 : ℚ)))])]).2
      (by simp) (by decide) (by decide)
  have heq : align_time_series [("BTC", [((0 : ℤ), (100 : ℚ)), (2, 110)])]
      [("BTC", [((1 : ℤ), ((105 : ℚ), (2 : ℚ)))])] =
      .ok ({ timestamps := [0, 1, 2]
           , columns :=
               [("BTC_spot", [some 100, some 100, some 110]),
                ("BTC_futures_mark", [some 105, some 105, some 105]),
                ("BTC_funding", [some 0, some 2, some 2])] }
         , [markGapWarning "BTC" 1, fundingGapWarning "BTC" 1]) := by
    with_unfolding_all rfl
  rw [heq] at hok
  have hpair := Except.ok.inj hok
  have htbl : ({ timestamps := [0, 1, 2]
               , columns :=
                   [("BTC_spot", [some 100, some 100, some 110]),
                    ("BTC_futures_mark", [some 105, some 105, some 105]),
                    ("BTC_funding", [some 0, some 2, some 2])] } :
      AlignedTable) = tbl := congrArg Prod.fst hpair
  have hts : tbl.timestamps = [0, 1, 2] := by rw [← htbl]
  refine ⟨heq, ?_, ?_⟩
  · refine hall ("BTC_funding", [some (0 : ℚ), some 2, some 2]) ?_
    rw [← htbl]
    exact List.mem_cons_of_mem _
      (List.mem_cons_of_mem _ (List.mem_cons_self _ _))
  · have h2 := (hfu ("BTC", [((1 : ℤ), ((105 : ℚ), (2 : ℚ)))])
      (List.mem_cons_self _ _)).2.1
    rw [hts] at h2
    exact h2

/-! ### Helper lemmas: fetch and resample -/

theorem noneMask_ffillAux_congr :
    ∀ (l1 l2 : List (Option ℚ)) (c1 c2 : Option ℚ),
      noneMask l1 = noneMask l2 → c1.isNone = c2.isNone →
      noneMask (ffillAux c1 l1) = noneMask (ffillAux c2 l2)
  | [], [], _, _, _, _ => rfl
  | [], _ :: _, _, _, hm, _ => by simp [noneMask] at hm
  | _ :: _, [], _, _, hm, _ => by simp [noneMask] at hm
  | x1 :: r1, x2 :: r2, c1, c2, hm, hc => by
    unfold noneMask at hm
    rw [List.map_cons, List.map_cons] at hm
    injection hm with hx hrest
    cases x1 with
    | none =>
      cases x2 with
      | none =>
        show noneMask (c1 :: ffillAux c1 r1) = noneMask (c2 :: ffillAux c2 r2)
        unfold noneMask
        rw [List.map_cons, List.map_cons, hc]
        have := noneMask_ffillAux_congr r1 r2 c1 c2 hrest hc
        unfold noneMask at this
        rw [this]
      | some _ => cases hx
    | some v1 =>
      cases x2 with
      | none => cases hx
      | some v2 =>
        show noneMask (some v1 :: ffillAux (some v1) r1) =
          noneMask (some v2 :: ffillAux (some v2) r2)
        unfold noneMask
        rw [List.map_cons, List.map_cons]
        have := noneMask_ffillAux_congr r1 r2 (some v1) (some v2) hrest rfl
        unfold noneMask at this
        rw [this]
        rfl

theorem countNone_congr :
    ∀ l1 l2 : List (Option ℚ), noneMask l1 = noneMask l2 →
      countNone l1 = countNone l2
  | [], [], _ => rfl
  | [], _ :: _, hm => by simp [noneMask] at hm
  | _ :: _, [], hm => by simp [noneMask] at hm
  | x1 :: r1, x2 :: r2, hm => by
    unfold noneMask at hm
    rw [List.map_cons, List.map_cons] at hm
    injection hm with hx hrest
    rw [countNone_cons, countNone_cons, hx,
      countNone_congr r1 r2 hrest]

theorem lookupTs_isSome_iff (t : ℤ) (s : List (ℤ × ℚ)) :
    (lookupTs t s).isSome = true ↔ t ∈ s.map (fun r => r.1) := by
  unfold lookupTs
  have hmap : ((s.find? (fun r => decide (r.1 = t))).map
      (fun r => r.2)).isSome = (s.find? (fun r => decide (r.1 = t))).isSome := by
    cases s.find? (fun r => decide (r.1 = t)) <;> rfl
  rw [hmap, List.find?_isSome]
  constructor
  · rintro ⟨r, hr, hp⟩
    have : r.1 = t := by simpa using hp
    exact this ▸ List.mem_map.mpr ⟨r, hr, rfl⟩
  · intro ht
    obtain ⟨r, hr, hrt⟩ := List.mem_map.mp ht
    exact ⟨r, hr, by simp [hrt]⟩

theorem lookupTs_isNone_congr {s1 s2 : List (ℤ × ℚ)}
    (h : s1.map (fun r => r.1) = s2.map (fun r => r.1)) (t : ℤ) :
    (lookupTs t s1).isNone = (lookupTs t s2).isNone := by
  have hs : (lookupTs t s1).isSome = (lookupTs t s2).isSome := by
    cases b1 : (lookupTs t s1).isSome <;> cases b2 : (lookupTs t s2).isSome
    · rfl
    · exact absurd ((lookupTs_isSome_iff t s1).mpr
        (h ▸ (lookupTs_isSome_iff t s2).mp b2)) (by rw [b1]; simp)
    · exact absurd ((lookupTs_isSome_iff t s2).mpr
        (h ▸ (lookupTs_isSome_iff t s1).mp b1)) (by rw [b2]; simp)
    · rfl
  cases o1 : lookupTs t s1 <;> cases o2 : lookupTs t s2 <;>
    rw [o1, o2] at hs <;> first | rfl | cases hs

theorem ffilledColumn_noneMask_congr {s1 s2 : List (ℤ × ℚ)}
    (h : s1.map (fun r => r.1) = s2.map (fun r => r.1)) (range : List ℤ) :
    noneMask (ffilledColumn range s1) = noneMask (ffilledColumn range s2) := by
  unfold ffilledColumn ffill
  refine noneMask_ffillAux_congr _ _ none none ?_ rfl
  unfold noneMask
  rw [List.map_map, List.map_map]
  exact List.map_congr_left (fun t _ => lookupTs_isNone_congr h t)

theorem resampled_series_fst_eq (l : List (ℤ × ℚ × ℚ)) :
    (fundingSeries l).map (fun r => r.1) =
      (markSeries l).map (fun r => r.1) := by
  unfold fundingSeries markSeries
  rw [List.map_map, List.map_map]
  rfl

theorem resampleFutures_funding_zero {rows : List (ℤ × ℚ × Option ℚ)}
    (h : ∀ r ∈ rows, r.2.2 = some 0) :
    ∀ d mk fr, (d, mk, fr) ∈ resampleFutures rows → fr = 0 := by
  intro d mk fr hmem
  unfold resampleFutures at hmem
  obtain ⟨d2, hd2, hg⟩ := List.mem_filterMap.mp hmem
  cases hlast : (dayObsF rows d2).getLast? with
  | none => rw [hlast] at hg; cases hg
  | some last =>
    rw [hlast] at hg
    dsimp only at hg
    by_cases hemp : ((dayObsF rows d2).filterMap (fun r => r.2.2)).isEmpty
    · rw [if_pos hemp] at hg; cases hg
    · rw [if_neg hemp] at hg
      have hg2 := Option.some.inj hg
      have hfr : ((dayObsF rows d2).filterMap (fun r => r.2.2)).sum /
          (((dayObsF rows d2).filterMap (fun r => r.2.2)).length : ℚ) = fr :=
        congrArg (fun x => x.2.2) hg2
      have hzero : ∀ x ∈ (dayObsF rows d2).filterMap (fun r => r.2.2),
          x = (0 : ℚ) := by
        intro x hx
        obtain ⟨r, hr, hrx⟩ := List.mem_filterMap.mp hx
        have hrmem : r ∈ rows := List.mem_of_mem_filter hr
        rw [h r hrmem] at hrx
        exact (Option.some.inj hrx).symm
      have hsum := List.sum_eq_zero hzero
      rw [hsum, zero_div] at hfr
      exact hfr.symm

theorem fetch_futures_zero_fill {db : Database} {now lookback_days : ℤ}
    {assets : List String} {a : String} {m : ℤ × ℚ} {ms : List (ℤ × ℚ)}
    (ha : a ∈ assets)
    (hmark : db.get_mark_klines a (now - lookback_days * 24) now =
      .ok (m :: ms))
    (hfund : db.get_funding_rates a (now - lookback_days * 24) now =
      .ok []) :
    (a, sortByTs3 ((m :: ms).map (fun r => (r.1, r.2, some (0 : ℚ))))) ∈
      (fetch_portfolio_data db now assets lookback_days).2.1 := by
  unfold fetch_portfolio_data
  dsimp only
  refine List.mem_filterMap.mpr ⟨a, ha, ?_⟩
  rw [hmark, hfund]
  rfl

/-! ### C10 -/

/-- C10, counterexample to the frozen claim: asset B's mark fetch returns
one candle (hour 48, day 2) while its funding fetch is empty, so
`fetch_portfolio_data` zero-fills B's funding series; but because asset
A's spot history starts two days earlier, alignment back-fills two leading
gaps in B's columns and does record a funding gap warning for B. -/
theorem claim10_counterexample :
    cexDb.get_mark_klines "B" (720 - 30 * 24) 720 =
      .ok [((48 : ℤ), (105 : ℚ))] ∧
    cexDb.get_funding_rates "B" (720 - 30 * 24) 720 = .ok [] ∧
    fetch_portfolio_data cexDb 720 ["A", "B"] 30 =
      ([("A", [((0 : ℤ), (10 : ℚ)), (24, 11)])],
       [("B", [((48 : ℤ), (105 : ℚ), some (0 : ℚ))])], 1) ∧
    resample_to_daily [("A", [((0 : ℤ), (10 : ℚ)), (24, 11)])]
        [("B", [((48 : ℤ), (105 : ℚ), some (0 : ℚ))])] =
      ([("A", [((0 : ℤ), (10 : ℚ)), (1, 11)])],
       [("B", [((2 : ℤ), (105 : ℚ), (0 : ℚ))])]) ∧
    align_time_series [("A", [((0 : ℤ), (10 : ℚ)), (1, 11)])]
        [("B", [((2 : ℤ), (105 : ℚ), (0 : ℚ))])] =
      .ok ({ timestamps := [0, 1, 2]
           , columns :=
               [("A_spot", [some 10, some 11, some 11]),
                ("B_futures_mark", [some 105, some 105, some 105]),
                ("B_funding", [some 0, some 0, some 0])] }
         , [markGapWarning "B" 2, fundingGapWarning "B" 2]) := by
  refine ⟨?_, ?_, ?_, ?_, ?_⟩ <;> with_unfolding_all rfl

/-- C10, amended: when an asset's mark fetch returns data and its funding
fetch is empty, the fetched futures series carries `funding = 0.0` on
every mark row (and the fetch stage returns no warnings at all — it
produces only data); every daily funding value after resampling is 0; and
at alignment the funding column's missingness pattern coincides exactly
with the mark column's, so a funding gap warning is recorded for the
asset if and only if a mark gap warning is — no recorded gap is
attributable to the funding zero-fill. -/
theorem claim10_zero_funding (db : Database) (now lookback_days : ℤ)
    (assets : List String) (a : String) (m : ℤ × ℚ) (ms : List (ℤ × ℚ))
    (ha : a ∈ assets)
    (hmark : db.get_mark_klines a (now - lookback_days * 24) now =
      .ok (m :: ms))
    (hfund : db.get_funding_rates a (now - lookback_days * 24) now =
      .ok []) :
    (a, sortByTs3 ((m :: ms).map (fun r => (r.1, r.2, some (0 : ℚ))))) ∈
      (fetch_portfolio_data db now assets lookback_days).2.1 ∧
    (∀ r ∈ sortByTs3 ((m :: ms).map (fun r => (r.1, r.2, some (0 : ℚ)))),
      r.2.2 = some 0) ∧
    (∀ r ∈ m :: ms, (r.1, r.2, some (0 : ℚ)) ∈
      sortByTs3 ((m :: ms).map (fun r => (r.1, r.2, some (0 : ℚ))))) ∧
    (∀ d mk fr, (d, mk, fr) ∈ resampleFutures
        (sortByTs3 ((m :: ms).map (fun r => (r.1, r.2, some (0 : ℚ))))) →
      fr = 0) ∧
    (∀ range : List ℤ,
      noneMask (ffilledColumn range (fundingSeries (resampleFutures
        (sortByTs3 ((m :: ms).map (fun r => (r.1, r.2, some (0 : ℚ)))))))) =
        noneMask (ffilledColumn range (markSeries (resampleFutures
          (sortByTs3 ((m :: ms).map (fun r => (r.1, r.2, some (0 : ℚ)))))))) ∧
      countNone (ffilledColumn range (fundingSeries (resampleFutures
        (sortByTs3 ((m :: ms).map (fun r => (r.1, r.2, some (0 : ℚ)))))))) =
        countNone (ffilledColumn range (markSeries (resampleFutures
          (sortByTs3 ((m :: ms).map (fun r => (r.1, r.2, some (0 : ℚ)))))))) ∧
      (fundingWarnings a range (resampleFutures
          (sortByTs3 ((m :: ms).map (fun r => (r.1, r.2, some (0 : ℚ)))))) = [] ↔
        markWarnings a range (resampleFutures
          (sortByTs3 ((m :: ms).map (fun r => (r.1, r.2, some (0 : ℚ)))))) = [])) := by
  have hperm := List.perm_insertionSort
    (fun x y : ℤ × ℚ × Option ℚ => x.1 ≤ y.1)
    ((m :: ms).map (fun r => (r.1, r.2, some (0 : ℚ))))
  have hz : ∀ r ∈ sortByTs3 ((m :: ms).map (fun r => (r.1, r.2, some (0 : ℚ)))),
      r.2.2 = some 0 := by
    intro r hr
    have hr2 := hperm.mem_iff.mp hr
    obtain ⟨x, _, rfl⟩ := List.mem_map.mp hr2
    rfl
  refine ⟨fetch_futures_zero_fill ha hmark hfund, hz, ?_, ?_, ?_⟩
  · intro r hr
    exact hperm.mem_iff.mpr (List.mem_map.mpr ⟨r, hr, rfl⟩)
  · exact resampleFutures_funding_zero hz
  · intro range
    have hfst := resampled_series_fst_eq (resampleFutures
      (sortByTs3 ((m :: ms).map (fun r => (r.1, r.2, some (0 : ℚ))))))
    have hmask := ffilledColumn_noneMask_congr hfst range
    have hcount := countNone_congr _ _ hmask
    refine ⟨hmask, hcount, ?_⟩
    unfold fundingWarnings markWarnings
    rw [hcount]
    by_cases hcond : 0 < countNone (ffilledColumn range (markSeries
        (resampleFutures (sortByTs3 ((m :: ms).map
          (fun r => (r.1, r.2, some (0 : ℚ))))))))
    · rw [if_pos hcond, if_pos hcond]
      simp
    · rw [if_neg hcond, if_neg hcond]

/-- Witness for the amended C10 at the counterexample database. -/
theorem claim10_zero_funding_witness :
    ("B", [((48 : ℤ), (105 : ℚ), some (0 : ℚ))]) ∈
      (fetch_portfolio_data cexDb 720 ["A", "B"] 30).2.1 ∧
    (fundingWarnings "B" [0, 1, 2]
        (resampleFutures [((48 : ℤ), (105 : ℚ), some (0 : ℚ))]) = [] ↔
      markWarnings "B" [0, 1, 2]
        (resampleFutures [((48 : ℤ), (105 : ℚ), some (0 : ℚ))]) = []) := by
  obtain ⟨hmem, hz, hup, hres, hrange⟩ :=
    claim10_zero_funding cexDb 720 30 ["A", "B"] "B" (48, 105) []
      (by simp) (by with_unfolding_all rfl) (by with_unfolding_all rfl)
  have hs : sortByTs3 (([((48 : ℤ), (105 : ℚ))] : List (ℤ × ℚ)).map
      (fun r => (r.1, r.2, some (0 : ℚ)))) =
      [((48 : ℤ), (105 : ℚ), some (0 : ℚ))] := by
    with_unfolding_all rfl
  rw [hs] at hmem hrange
  exact ⟨hmem, (hrange [0, 1, 2]).2.2⟩

/-! ### C1 -/

/-- C1: for a futures_long position whose price resolves, the position
value is `margin + pnl` with `margin = quantity * entry_price / leverage`
and `pnl = (price - entry_price) * quantity`; futures_short is symmetric
with `pnl = (entry_price - price) * quantity`; doubling the leverage
halves the margin term, leaves pnl unchanged, and leaves the delta
exposure unchanged (for any leverage change); a spot position values to
`quantity * price`. -/
theorem claim1_position_value (p : Position) (prices : PriceMap) (price : ℚ)
    (l : Option ℚ)
    (h : lookupPrice prices p.asset p.position_type = some price) :
    (p.position_type = "futures_long" →
      calculate_position_value p prices =
        .ok ((p.quantity * p.entry_price) / p.leverage.getD 1 +
          (price - p.entry_price) * p.quantity) ∧
      calculate_position_value
          { p with leverage := some (2 * p.leverage.getD 1) } prices =
        .ok (((p.quantity * p.entry_price) / p.leverage.getD 1) / 2 +
          (price - p.entry_price) * p.quantity)) ∧
    (p.position_type = "futures_short" →
      calculate_position_value p prices =
        .ok ((p.quantity * p.entry_price) / p.leverage.getD 1 +
          (p.entry_price - price) * p.quantity) ∧
      calculate_position_value
          { p with leverage := some (2 * p.leverage.getD 1) } prices =
        .ok (((p.quantity * p.entry_price) / p.leverage.getD 1) / 2 +
          (p.entry_price - price) * p.quantity)) ∧
    (p.position_type = "spot" →
      calculate_position_value p prices = .ok (p.quantity * price)) ∧
    calculate_delta_exposure [{ p with leverage := l }] =
      calculate_delta_exposure [p] := by
  have hhalf : (p.quantity * p.entry_price) / (2 * p.leverage.getD 1) =
      ((p.quantity * p.entry_price) / p.leverage.getD 1) / 2 := by
    rw [div_div]
    ring_nf
  refine ⟨?_, ?_, ?_, rfl⟩
  · intro ht
    rw [ht] at h
    constructor
    · simp [calculate_position_value, h, valueAtPrice, ht,
        calculate_futures_long_value]
    · simp [calculate_position_value, h, valueAtPrice, ht,
        calculate_futures_long_value, hhalf]
  · intro ht
    rw [ht] at h
    constructor
    · simp [calculate_position_value, h, valueAtPrice, ht,
        calculate_futures_short_value]
    · simp [calculate_position_value, h, valueAtPrice, ht,
        calculate_futures_short_value, hhalf]
  · intro ht
    rw [ht] at h
    simp [calculate_position_value, h, valueAtPrice, ht, calculate_spot_value]

/-- Witness for C1 at a concrete futures_long position. -/
theorem claim1_position_value_witness :
    calculate_position_value
        ⟨"BTC", 2, "futures_long", 100, some 4⟩
        [(.composite "BTC" "futures_long", 110)] =
      .ok ((2 * 100) / 4 + (110 - 100) * 2) ∧
    calculate_position_value
        ⟨"BTC", 2, "futures_long", 100, some (2 * 4)⟩
        [(.composite "BTC" "futures_long", 110)] =
      .ok (((2 * 100) / 4) / 2 + (110 - 100) * 2) := by
  have h := (claim1_position_value
    ⟨"BTC", 2, "futures_long", 100, some 4⟩
    [(.composite "BTC" "futures_long", 110)] 110 none rfl).1 rfl
  exact ⟨h.1, h.2⟩

/-! ### C2 -/

/-- C2: the delta exposure is the signed sum of quantities (`+quantity`
for spot and futures_long, `-quantity` for futures_short), leverage never
entering; a spot long plus a futures short of the same quantity nets to
zero for any leverage on the short leg. -/
theorem claim2_delta_exposure (ps : List Position) (asset : String) (q : ℚ)
    (entry : ℚ) (lev : Option ℚ) :
    calculate_delta_exposure ps = (ps.map signedQuantity).sum ∧
    calculate_delta_exposure
      [⟨asset, q, "spot", entry, none⟩,
       ⟨asset, q, "futures_short", entry, lev⟩] = 0 := by
  refine ⟨delta_eq_sum ps, ?_⟩
  show (if ("futures_short" : String) = "spot" then (0 + q) + q
    else if ("futures_short" : String) = "futures_long" then (0 + q) + q
    else if ("futures_short" : String) = "futures_short" then (0 + q) - q
    else (0 + q)) = 0
  rw [if_neg (by decide), if_neg (by decide), if_pos rfl]
  ring

/-! ### C3 -/

/-- C3: a successful sensitivity table has one row per shock, in the shock
range's order (row `i` carries `price_change_pct = shock_i * 100`), and any
row whose shock is `0` reproduces the base portfolio value exactly, with
`pnl = 0`. -/
theorem claim3_sensitivity_zero_row (positions : List Position)
    (base_prices : PriceMap) (shock_range : List ℚ) (base_value : ℚ)
    (rows : List SensRow)
    (hbase : calculate_portfolio_value positions base_prices = .ok base_value)
    (htbl : calculate_sensitivity_table positions base_prices shock_range =
      .ok rows) :
    rows.length = shock_range.length ∧
    ∀ (i : ℕ) (hi : i < rows.length) (hs : i < shock_range.length),
      (rows.get ⟨i, hi⟩).price_change_pct = shock_range.get ⟨i, hs⟩ * 100 ∧
      (shock_range.get ⟨i, hs⟩ = 0 →
        (rows.get ⟨i, hi⟩).portfolio_value = base_value ∧
        (rows.get ⟨i, hi⟩).pnl = 0) := by
  unfold calculate_sensitivity_table at htbl
  rw [hbase] at htbl
  obtain ⟨hlen, hrows⟩ :=
    sensRows_spec positions base_prices base_value shock_range rows htbl
  refine ⟨hlen, ?_⟩
  intro i hi hs
  obtain ⟨hpcp, sv, hsv, hpv, hpnl⟩ := hrows i hi hs
  refine ⟨hpcp, ?_⟩
  intro hzero
  rw [hzero, apply_price_shock_zero, hbase] at hsv
  cases hsv
  exact ⟨by rw [hpv], by rw [hpnl]; ring⟩

/-- Witness for C3: spot 2 BTC at base price 100, shocks -10%, 0, +10%. -/
theorem claim3_sensitivity_zero_row_witness :
    calculate_sensitivity_table
        [⟨"BTC", 2, "spot", 50, none⟩] [(.bare "BTC", 100)]
        [-(1 : ℚ)/10, 0, 1/10] =
      .ok [⟨-10, 180, -20, -10⟩, ⟨0, 200, 0, 0⟩, ⟨10, 220, 20, 10⟩] ∧
    ([(⟨-10, 180, -20, -10⟩ : SensRow), ⟨0, 200, 0, 0⟩,
        ⟨10, 220, 20, 10⟩].get ⟨1, by decide⟩).portfolio_value = 200 ∧
    ([(⟨-10, 180, -20, -10⟩ : SensRow), ⟨0, 200, 0, 0⟩,
        ⟨10, 220, 20, 10⟩].get ⟨1, by decide⟩).pnl = 0 := by
  have h := (claim3_sensitivity_zero_row
    [⟨"BTC", 2, "spot", 50, none⟩] [(.bare "BTC", 100)]
    [-(1 : ℚ)/10, 0, 1/10] 200
    [⟨-10, 180, -20, -10⟩, ⟨0, 200, 0, 0⟩, ⟨10, 220, 20, 10⟩]
    (by with_unfolding_all rfl) (by with_unfolding_all rfl)).2 1
    (by decide) (by decide)
  refine ⟨by with_unfolding_all rfl, ?_, ?_⟩
  · exact (h.2 (by with_unfolding_all rfl)).1
  · exact (h.2 (by with_unfolding_all rfl)).2

/-! ### C4 -/

theorem validatePosition_false_iff (p : RawPosition) :
    validatePosition p = false ↔ PositionInvalid p := by
  rw [show (validatePosition p = false) ↔ ¬ validatePosition p = true by
    cases validatePosition p <;> simp]
  rcases p with ⟨a, q, t, e, l⟩
  rcases a with _ | a
  · simp [validatePosition, PositionInvalid]
  rcases q with _ | q
  · simp [validatePosition, PositionInvalid]
  rcases t with _ | t
  · simp [validatePosition, PositionInvalid]
  rcases e with _ | e
  · simp [validatePosition, PositionInvalid]
  have hpos : validatePosition ⟨some a, some q, some t, some e, l⟩ = true ↔
      ((t = "spot" ∨ t = "futures_long" ∨ t = "futures_short") ∧ 0 < q ∧
        0 < e ∧ (0 < Option.getD l 1 ∧ Option.getD l 1 ≤ 125)) := by
    simp [validatePosition, and_assoc, or_assoc]
  have hneg : PositionInvalid ⟨some a, some q, some t, some e, l⟩ ↔
      (¬(t = "spot" ∨ t = "futures_long" ∨ t = "futures_short") ∨ ¬(0 < q) ∨
        ¬(0 < e) ∨ ¬(0 < Option.getD l 1) ∨ ¬(Option.getD l 1 ≤ 125)) := by
    simp [PositionInvalid, not_or, not_lt, not_le]
  rw [hpos, hneg]
  tauto

/-- C4: `_validate_positions` fails exactly when the list is empty or
longer than 20, some position lacks a required field, has a position type
outside the three kinds, a non-positive quantity or entry price, or a
leverage outside `(0, 125]`; it passes on every list avoiding all of
these. -/
theorem claim4_validation (ps : List RawPosition) :
    validate_positions ps = false ↔ InvalidPortfolioCondition ps := by
  have hval : validate_positions ps = true ↔
      (ps ≠ [] ∧ ps.length ≤ 20 ∧ ∀ p ∈ ps, validatePosition p = true) := by
    simp [validate_positions, List.all_eq_true, and_assoc]
  rw [show (validate_positions ps = false) ↔ ¬ validate_positions ps = true by
    cases validate_positions ps <;> simp]
  rw [hval]
  unfold InvalidPortfolioCondition
  constructor
  · intro h
    by_cases h0 : ps = []
    · exact .inl h0
    by_cases h1 : ps.length ≤ 20
    · refine .inr (.inr ?_)
      have h2 : ¬ ∀ p ∈ ps, validatePosition p = true := by
        intro hall; exact h ⟨h0, h1, hall⟩
      push_neg at h2
      obtain ⟨p, hp, hfalse⟩ := h2
      exact ⟨p, hp, (validatePosition_false_iff p).mp (by
        cases hv : validatePosition p
        · rfl
        · exact absurd hv hfalse)⟩
    · exact .inr (.inl (by omega))
  · rintro (h | h | ⟨p, hp, hinv⟩) ⟨h0, h1, hall⟩
    · exact h0 h
    · omega
    · have := hall p hp
      rw [(validatePosition_false_iff p).mpr hinv] at this
      cases this

/-! ### C5 -/

/-- C5: the price lookup of `calculate_position_value` uses the composite
`(asset, position_type)` key first and falls back to the bare asset key
only when the composite key is absent; it fails with MissingPrice exactly
when neither key resolves (and then produces no value). -/
theorem claim5_price_lookup (p : Position) (prices : PriceMap) :
    (∀ c, pmGet prices (.composite p.asset p.position_type) = some c →
      calculate_position_value p prices = valueAtPrice p c) ∧
    (pmGet prices (.composite p.asset p.position_type) = none →
      ∀ b, pmGet prices (.bare p.asset) = some b →
        calculate_position_value p prices = valueAtPrice p b) ∧
    (calculate_position_value p prices = .error .missingPrice ↔
      pmGet prices (.composite p.asset p.position_type) = none ∧
      pmGet prices (.bare p.asset) = none) := by
  refine ⟨?_, ?_, ?_, ?_⟩
  · intro c hc
    simp [calculate_position_value, lookupPrice, hc]
  · intro hnone b hb
    simp [calculate_position_value, lookupPrice, hnone, hb]
  · intro hval
    unfold calculate_position_value lookupPrice at hval
    cases hcomp : pmGet prices (.composite p.asset p.position_type) with
    | some c =>
      rw [hcomp] at hval
      exact absurd hval (valueAtPrice_ne_missingPrice p c)
    | none =>
      rw [hcomp] at hval
      cases hbare : pmGet prices (.bare p.asset) with
      | some b =>
        rw [hbare] at hval
        exact absurd hval (valueAtPrice_ne_missingPrice p b)
      | none => exact ⟨rfl, rfl⟩
  · rintro ⟨h1, h2⟩
    simp [calculate_position_value, lookupPrice, h1, h2]

/-- Witness for C5: composite key wins over a conflicting bare key, and a
position with neither key fails with MissingPrice. -/
theorem claim5_price_lookup_witness :
    calculate_position_value (⟨"BTC", 3, "spot", 50, none⟩ : Position)
        [(.composite "BTC" "spot", 100), (.bare "BTC", 7)] = .ok (3 * 100) ∧
    calculate_position_value (⟨"ETH", 3, "spot", 50, none⟩ : Position)
        [(.composite "BTC" "spot", 100), (.bare "BTC", 7)] =
      .error .missingPrice := by
  constructor
  · have h := (claim5_price_lookup (⟨"BTC", 3, "spot", 50, none⟩ : Position)
      [(.composite "BTC" "spot", 100), (.bare "BTC", 7)]).1 100 rfl
    rw [h]
    rfl
  · exact ((claim5_price_lookup (⟨"ETH", 3, "spot", 50, none⟩ : Position)
      [(.composite "BTC" "spot", 100), (.bare "BTC", 7)]).2.2).mpr
      ⟨rfl, rfl⟩

/-! ### Helper lemmas: dashboard scoring -/

theorem round1_nonneg {q : ℚ} (h : 0 ≤ q) : 0 ≤ round1 q := by
  unfold round1
  apply div_nonneg _ (by norm_num : (0 : ℚ) ≤ 10)
  have h2 : (0 : ℤ) ≤ round (10 * q) := by
    rw [round_eq, Int.le_floor]
    push_cast
    linarith
  exact_mod_cast h2

theorem round1_le_25 {q : ℚ} (h : q ≤ 25) : round1 q ≤ 25 := by
  unfold round1
  rw [div_le_iff₀ (by norm_num : (0 : ℚ) < 10)]
  have h2 : round (10 * q) ≤ 250 := by
    have h3 : ⌊10 * q + 1 / 2⌋ < 251 := by
      rw [Int.floor_lt]
      push_cast
      linarith
    rw [round_eq]
    omega
  calc ((round (10 * q) : ℤ) : ℚ) ≤ ((250 : ℤ) : ℚ) := by exact_mod_cast h2
    _ = 25 * 10 := by norm_num

theorem round1_of_half : round1 (12.5 : ℚ) = 12.5 := by
  unfold round1
  rw [show (10 : ℚ) * 12.5 = 125 by norm_num]
  rw [show round (125 : ℚ) = 125 by
    rw [round_eq]
    rw [show (125 : ℚ) + 1 / 2 = 251 / 2 by norm_num]
    rw [show ⌊(251 : ℚ) / 2⌋ = 125 by
      rw [Int.floor_eq_iff]
      norm_num]]
  norm_num

theorem deltaScore_bounds (dn : ℚ) :
    0 ≤ (deltaScoreStatus dn).1 ∧ (deltaScoreStatus dn).1 ≤ 25 := by
  unfold deltaScoreStatus
  split_ifs with h1 h2 <;> dsimp only
  · exact ⟨by norm_num, le_refl _⟩
  · refine ⟨le_max_left _ _, max_le (by norm_num) ?_⟩
    have h3 : (0.05 : ℚ) < dn := lt_of_not_le h1
    have h4 : 0 ≤ ((dn - 0.05) / 0.45) * 25 :=
      mul_nonneg (div_nonneg (by linarith) (by norm_num)) (by norm_num)
    linarith
  · exact ⟨le_refl _, by norm_num⟩

theorem volScore_bounds (v : ℚ) :
    0 ≤ (volScoreStatus v).1 ∧ (volScoreStatus v).1 ≤ 25 := by
  unfold volScoreStatus
  split_ifs with h1 h2 <;> dsimp only
  · exact ⟨by norm_num, le_refl _⟩
  · refine ⟨le_max_left _ _, max_le (by norm_num) ?_⟩
    have h3 : (0.3 : ℚ) < v := lt_of_not_le h1
    have h4 : 0 ≤ ((v - 0.3) / 0.7) * 25 :=
      mul_nonneg (div_nonneg (by linarith) (by norm_num)) (by norm_num)
    linarith
  · exact ⟨le_refl _, by norm_num⟩

theorem levScore_bounds (ml : ℚ) :
    0 ≤ (levScoreStatus ml).1 ∧ (levScoreStatus ml).1 ≤ 25 := by
  unfold levScoreStatus
  split_ifs with h1 h2 <;> dsimp only
  · exact ⟨by norm_num, le_refl _⟩
  · refine ⟨le_max_left _ _, max_le (by norm_num) ?_⟩
    have h3 : (2 : ℚ) < ml := lt_of_not_le h1
    have h4 : 0 ≤ ((ml - 2) / 18) * 25 :=
      mul_nonneg (div_nonneg (by linarith) (by norm_num)) (by norm_num)
    linarith
  · exact ⟨le_refl _, by norm_num⟩

theorem sharpeScore_bounds (s dn : ℚ) :
    0 ≤ (sharpeScoreStatus s dn).1 ∧ (sharpeScoreStatus s dn).1 ≤ 25 := by
  unfold sharpeScoreStatus
  split_ifs with h1 h2 h3 h4 h5 <;> dsimp only
  · exact ⟨by norm_num, by norm_num⟩
  · exact ⟨by norm_num, le_refl _⟩
  · have h2b : s < 1.0 := lt_of_not_le h2
    have e : (18 + ((s - 0.5) / 0.5) * 7 : ℚ) = 11 + 14 * s := by ring
    rw [e]
    exact ⟨by linarith, by linarith⟩
  · have h3b : s < 0.5 := lt_of_not_le h3
    have e : (10 + (s / 0.5) * 8 : ℚ) = 10 + 16 * s := by ring
    rw [e]
    exact ⟨by linarith, by linarith⟩
  · have h4b : s < 0.0 := lt_of_not_le h4
    have e : (5 + ((s + 0.5) / 0.5) * 5 : ℚ) = 10 + 10 * s := by ring
    rw [e]
    exact ⟨by linarith, by linarith⟩
  · exact ⟨le_refl _, by norm_num⟩

/-! ### C8 -/

/-- C8: every health component's stored score lies in `[0, 25]`, the
health score is exactly the sum of the four stored component scores and
lies in `[0, 100]`, and whenever the normalized delta is strictly below
5% the Sharpe component's score is exactly the fixed neutral 12.5,
whatever the Sharpe ratio. -/
theorem claim8_health_score (v s cv : ℚ) (ps : List Position)
    (cp : PriceMap) (de : ℚ) :
    (0 ≤ (calculate_alert_dashboard v s cv ps cp de).delta_neutral.score ∧
      (calculate_alert_dashboard v s cv ps cp de).delta_neutral.score ≤ 25) ∧
    (0 ≤ (calculate_alert_dashboard v s cv ps cp de).volatility.score ∧
      (calculate_alert_dashboard v s cv ps cp de).volatility.score ≤ 25) ∧
    (0 ≤ (calculate_alert_dashboard v s cv ps cp de).sharpe_ratio.score ∧
      (calculate_alert_dashboard v s cv ps cp de).sharpe_ratio.score ≤ 25) ∧
    (0 ≤ (calculate_alert_dashboard v s cv ps cp de).leverage.score ∧
      (calculate_alert_dashboard v s cv ps cp de).leverage.score ≤ 25) ∧
    (calculate_alert_dashboard v s cv ps cp de).health_score =
      (calculate_alert_dashboard v s cv ps cp de).delta_neutral.score +
      (calculate_alert_dashboard v s cv ps cp de).volatility.score +
      (calculate_alert_dashboard v s cv ps cp de).sharpe_ratio.score +
      (calculate_alert_dashboard v s cv ps cp de).leverage.score ∧
    (0 ≤ (calculate_alert_dashboard v s cv ps cp de).health_score ∧
      (calculate_alert_dashboard v s cv ps cp de).health_score ≤ 100) ∧
    ((calculate_alert_dashboard v s cv ps cp de).delta_normalized < 0.05 →
      (calculate_alert_dashboard v s cv ps cp de).sharpe_ratio.score =
        12.5) := by
  have e1 : (calculate_alert_dashboard v s cv ps cp de).delta_neutral.score =
      round1 (deltaScoreStatus
        (if 0 < cv then |de| / cv else 0)).1 := rfl
  have e2 : (calculate_alert_dashboard v s cv ps cp de).volatility.score =
      round1 (volScoreStatus v).1 := rfl
  have e3 : (calculate_alert_dashboard v s cv ps cp de).sharpe_ratio.score =
      round1 (sharpeScoreStatus s
        (if 0 < cv then |de| / cv else 0)).1 := rfl
  have e4 : (calculate_alert_dashboard v s cv ps cp de).leverage.score =
      round1 (levScoreStatus (maxLeverage ps)).1 := rfl
  have edn : (calculate_alert_dashboard v s cv ps cp de).delta_normalized =
      (if 0 < cv then |de| / cv else 0) := rfl
  have b1 := deltaScore_bounds (if 0 < cv then |de| / cv else 0)
  have b2 := volScore_bounds v
  have b3 := sharpeScore_bounds s (if 0 < cv then |de| / cv else 0)
  have b4 := levScore_bounds (maxLeverage ps)
  have r1a := round1_nonneg b1.1
  have r1b := round1_le_25 b1.2
  have r2a := round1_nonneg b2.1
  have r2b := round1_le_25 b2.2
  have r3a := round1_nonneg b3.1
  have r3b := round1_le_25 b3.2
  have r4a := round1_nonneg b4.1
  have r4b := round1_le_25 b4.2
  refine ⟨⟨?_, ?_⟩, ⟨?_, ?_⟩, ⟨?_, ?_⟩, ⟨?_, ?_⟩, rfl, ⟨?_, ?_⟩, ?_⟩
  · rw [e1]; exact r1a
  · rw [e1]; exact r1b
  · rw [e2]; exact r2a
  · rw [e2]; exact r2b
  · rw [e3]; exact r3a
  · rw [e3]; exact r3b
  · rw [e4]; exact r4a
  · rw [e4]; exact r4b
  · have eh : (calculate_alert_dashboard v s cv ps cp de).health_score =
        round1 (deltaScoreStatus (if 0 < cv then |de| / cv else 0)).1 +
        round1 (volScoreStatus v).1 +
        round1 (sharpeScoreStatus s (if 0 < cv then |de| / cv else 0)).1 +
        round1 (levScoreStatus (maxLeverage ps)).1 := rfl
    rw [eh]
    linarith
  · have eh : (calculate_alert_dashboard v s cv ps cp de).health_score =
        round1 (deltaScoreStatus (if 0 < cv then |de| / cv else 0)).1 +
        round1 (volScoreStatus v).1 +
        round1 (sharpeScoreStatus s (if 0 < cv then |de| / cv else 0)).1 +
        round1 (levScoreStatus (maxLeverage ps)).1 := rfl
    rw [eh]
    linarith
  · intro hdn
    rw [edn] at hdn
    rw [e3]
    rw [show sharpeScoreStatus s (if 0 < cv then |de| / cv else 0) =
        (12.5, "fair") by
      unfold sharpeScoreStatus
      rw [if_pos hdn]]
    exact round1_of_half

/-- Witness for C8: a delta-neutral portfolio (normalized delta 1%) with
a deeply negative Sharpe ratio still gets the fixed neutral score. -/
theorem claim8_health_score_witness :
    (calculate_alert_dashboard (1/5) (-3) 100 [] [] 1).delta_normalized <
      0.05 ∧
    (calculate_alert_dashboard (1/5) (-3) 100 [] [] 1).sharpe_ratio.score =
      12.5 ∧
    (calculate_alert_dashboard (1/5) (-3) 100 [] [] 1).health_score ≤
      100 := by
  have hdn : (calculate_alert_dashboard (1/5) (-3) 100 [] [] 1).delta_normalized
      < 0.05 := by
    have e : (calculate_alert_dashboard (1/5) (-3) 100 [] [] 1).delta_normalized
        = (1 : ℚ) / 100 := by with_unfolding_all rfl
    rw [e]
    norm_num
  have h := claim8_health_score (1/5) (-3) 100 [] [] 1
  exact ⟨hdn, h.2.2.2.2.2.2 hdn, (h.2.2.2.2.2.1).2⟩

/-! ### Helper lemmas: liquidation -/

theorem levelRank_le_two (s : String) : levelRank s ≤ 2 := by
  unfold levelRank
  split_ifs <;> omega

theorem overall_eq_worst (risks : List LiquidationEntry) :
    levelRank (overallLiquidationRisk risks) =
      (risks.map (fun e => levelRank e.risk_level)).foldl max 0 := by
  unfold overallLiquidationRisk
  by_cases hemp : risks.isEmpty
  · rw [if_pos hemp]
    rw [List.isEmpty_iff.mp hemp]
    rfl
  rw [if_neg hemp]
  by_cases hhigh : risks.any (fun r => decide (r.risk_level = "high")) = true
  · rw [if_pos hhigh]
    obtain ⟨e, he, hel⟩ := List.any_eq_true.mp hhigh
    have hel2 : e.risk_level = "high" := of_decide_eq_true hel
    have hmem : (2 : ℕ) ∈ risks.map (fun e => levelRank e.risk_level) := by
      refine List.mem_map.mpr ⟨e, he, ?_⟩
      rw [show levelRank e.risk_level = 2 by
        unfold levelRank
        rw [hel2]
        rfl]
    have h1 := le_foldl_max _ 0 2 hmem
    have h2 := foldl_max_le (risks.map (fun e => levelRank e.risk_level)) 0 2
      (by omega) (by
        intro x hx
        obtain ⟨r, _, rfl⟩ := List.mem_map.mp hx
        exact levelRank_le_two _)
    rw [show levelRank "high" = 2 from rfl]
    omega
  · rw [if_neg hhigh]
    have hnothigh : ∀ r ∈ risks, r.risk_level ≠ "high" := by
      intro r hr hcon
      exact hhigh (List.any_eq_true.mpr ⟨r, hr, decide_eq_true hcon⟩)
    by_cases hmod : risks.any (fun r => decide (r.risk_level = "moderate")) =
        true
    · rw [if_pos hmod]
      obtain ⟨e, he, hel⟩ := List.any_eq_true.mp hmod
      have hel2 : e.risk_level = "moderate" := of_decide_eq_true hel
      have hmem : (1 : ℕ) ∈ risks.map (fun e => levelRank e.risk_level) := by
        refine List.mem_map.mpr ⟨e, he, ?_⟩
        rw [show levelRank e.risk_level = 1 by
          unfold levelRank
          rw [if_neg (by rw [hel2]; decide), if_pos hel2]]
      have h1 := le_foldl_max _ 0 1 hmem
      have h2 := foldl_max_le (risks.map (fun e => levelRank e.risk_level)) 0 1
        (by omega) (by
          intro x hx
          obtain ⟨r, hr, rfl⟩ := List.mem_map.mp hx
          unfold levelRank
          rw [if_neg (hnothigh r hr)]
          split_ifs <;> omega)
      rw [show levelRank "moderate" = 1 from rfl]
      omega
    · rw [if_neg hmod]
      have hnotmod : ∀ r ∈ risks, r.risk_level ≠ "moderate" := by
        intro r hr hcon
        exact hmod (List.any_eq_true.mpr ⟨r, hr, decide_eq_true hcon⟩)
      have h2 := foldl_max_le (risks.map (fun e => levelRank e.risk_level)) 0 0
        (by omega) (by
          intro x hx
          obtain ⟨r, hr, rfl⟩ := List.mem_map.mp hx
          unfold levelRank
          rw [if_neg (hnothigh r hr), if_neg (hnotmod r hr)])
      rw [show levelRank "low" = 0 from rfl]
      omega

/-! ### C9 -/

/-- C9: every futures position with leverage above 1 is assessed, with
liquidation price `entry * (1 - 0.9/leverage)` for longs and
`entry * (1 + 0.9/leverage)` for shorts, and a risk level of safe,
moderate or high according to whether the (signed) price-distance
percentage exceeds 50, lies in `(25, 50]`, or is at most 25; conversely
every assessed entry comes from such a position; and the overall
liquidation risk is the worst level over all assessed entries
(`low` when none are assessed, `safe` ranking as `low`). -/
theorem claim9_liquidation (positions : List Position)
    (current_prices : PriceMap) :
    (∀ p ∈ positions,
      (p.position_type = "futures_long" ∨
        p.position_type = "futures_short") →
      1 < p.leverage.getD 1 →
      ∃ e ∈ liquidationRisks positions current_prices,
        e.asset = p.asset ∧ e.position_type = p.position_type ∧
        e.liquidation_price =
          (if p.position_type = "futures_long" then
            p.entry_price * (1 - 0.9 / p.leverage.getD 1)
          else p.entry_price * (1 + 0.9 / p.leverage.getD 1)) ∧
        e.current_price = (pmGet current_prices
          (.composite p.asset p.position_type)).getD p.entry_price ∧
        e.risk_level =
          (if liqDistance current_prices p > 50 then "safe"
           else if liqDistance current_prices p > 25 then "moderate"
           else "high") ∧
        e.price_distance_pct = |liqDistance current_prices p|) ∧
    (∀ e ∈ liquidationRisks positions current_prices, ∃ p ∈ positions,
      (p.position_type = "futures_long" ∨
        p.position_type = "futures_short") ∧
      1 < p.leverage.getD 1 ∧
      assessLiquidation current_prices p = some e) ∧
    levelRank (overallLiquidationRisk
        (liquidationRisks positions current_prices)) =
      ((liquidationRisks positions current_prices).map
        (fun e => levelRank e.risk_level)).foldl max 0 := by
  refine ⟨?_, ?_, overall_eq_worst _⟩
  · intro p hp htype hlev
    have hassess : assessLiquidation current_prices p =
        some { asset := p.asset
             , position_type := p.position_type
             , liquidation_price :=
                 (if p.position_type = "futures_long" then
                   p.entry_price * (1 - 0.9 / p.leverage.getD 1)
                 else p.entry_price * (1 + 0.9 / p.leverage.getD 1))
             , current_price := (pmGet current_prices
                 (.composite p.asset p.position_type)).getD p.entry_price
             , price_distance_pct := |liqDistance current_prices p|
             , risk_level :=
                 if liqDistance current_prices p > 50 then "safe"
                 else if liqDistance current_prices p > 25 then "moderate"
                 else "high" } := by
      unfold assessLiquidation liqDistance
      rw [if_pos ⟨htype, hlev⟩]
      rcases htype with h | h
      · rw [h]
        rfl
      · rw [h]
        rfl
    exact ⟨_, List.mem_filterMap.mpr ⟨p, hp, hassess⟩,
      rfl, rfl, rfl, rfl, rfl, rfl⟩
  · intro e he
    obtain ⟨p, hp, hassess⟩ := List.mem_filterMap.mp he
    refine ⟨p, hp, ?_, ?_, hassess⟩
    · by_contra hcon
      unfold assessLiquidation at hassess
      rw [if_neg (fun hand => hcon hand.1)] at hassess
      cases hassess
    · by_contra hcon
      unfold assessLiquidation at hassess
      rw [if_neg (fun hand => hcon hand.2)] at hassess
      cases hassess

/-- Witness for C9: a 2x long entered at 100 with current price 90 has
liquidation price 55, signed distance 350/9 percent, risk level
moderate, and the overall risk equals the worst level. -/
theorem claim9_liquidation_witness :
    liquidationRisks [⟨"BTC", 1, "futures_long", 100, some 2⟩]
        [(.composite "BTC" "futures_long", 90)] =
      [⟨"BTC", "futures_long", 55, 90, 350/9, "moderate"⟩] ∧
    (⟨"BTC", "futures_long", 55, 90, 350/9, "moderate"⟩ :
      LiquidationEntry).risk_level = "moderate" ∧
    levelRank (overallLiquidationRisk (liquidationRisks
        [⟨"BTC", 1, "futures_long", 100, some 2⟩]
        [(.composite "BTC" "futures_long", 90)])) =
      ((liquidationRisks [⟨"BTC", 1, "futures_long", 100, some 2⟩]
          [(.composite "BTC" "futures_long", 90)]).map
        (fun e => levelRank e.risk_level)).foldl max 0 := by
  have h := claim9_liquidation [⟨"BTC", 1, "futures_long", 100, some 2⟩]
    [(.composite "BTC" "futures_long", 90)]
  obtain ⟨e, he, hprops⟩ := h.1 ⟨"BTC", 1, "futures_long", 100, some 2⟩
    (List.mem_cons_self _ _) (Or.inl rfl) (by norm_num)
  refine ⟨by with_unfolding_all rfl, rfl, h.2.2⟩

/-! ### Helper lemmas: orchestration success -/

theorem pmGet_cons_isSome {m : PriceMap} {k : PriceKey} (e : PriceKey × ℚ)
    (h : (pmGet m k).isSome = true) : (pmGet (e :: m) k).isSome = true := by
  unfold pmGet at *
  by_cases he : e.1 = k
  · rw [List.find?_cons_of_pos _ (by simp [he])]
    rfl
  · rw [List.find?_cons_of_neg _ (by simp [he])]
    exact h

theorem pmGet_self_cons (k : PriceKey) (v : ℚ) (m : PriceMap) :
    pmGet ((k, v) :: m) k = some v := by
  unfold pmGet
  rw [List.find?_cons_of_pos _ (by simp)]
  rfl

theorem extract_key_isSome {t : AlignedTable} :
    ∀ {ps : List Position} {m : PriceMap},
      extract_current_prices t ps = .ok m → ∀ p ∈ ps,
        (pmGet m (.composite p.asset p.position_type)).isSome = true := by
  intro ps
  induction ps with
  | nil => intro m _ p hp; cases hp
  | cons q rest ih =>
    intro m h p hp
    unfold extract_current_prices at h
    cases hcol : tableGetCol t (colName q) with
    | none => rw [hcol] at h; cases h
    | some col =>
      rw [hcol] at h
      cases hrec : extract_current_prices t rest with
      | error e => rw [hrec] at h; cases h
      | ok m2 =>
        rw [hrec] at h
        cases h
        rcases List.mem_cons.mp hp with rfl | hp
        · rw [pmGet_self_cons]
          rfl
        · exact pmGet_cons_isSome _ (ih hrec p hp)

theorem extract_col_isSome {t : AlignedTable} :
    ∀ {ps : List Position} {m : PriceMap},
      extract_current_prices t ps = .ok m → ∀ p ∈ ps,
        (tableGetCol t (colName p)).isSome = true := by
  intro ps
  induction ps with
  | nil => intro m _ p hp; cases hp
  | cons q rest ih =>
    intro m h p hp
    unfold extract_current_prices at h
    cases hcol : tableGetCol t (colName q) with
    | none => rw [hcol] at h; cases h
    | some col =>
      rw [hcol] at h
      cases hrec : extract_current_prices t rest with
      | error e => rw [hrec] at h; cases h
      | ok m2 =>
        rcases List.mem_cons.mp hp with rfl | hp
        · rw [hcol]; rfl
        · exact ih hrec p hp

theorem position_value_ok {p : Position} {cp : PriceMap}
    (hk : (pmGet cp (.composite p.asset p.position_type)).isSome = true)
    (ht : p.position_type = "spot" ∨ p.position_type = "futures_long" ∨
      p.position_type = "futures_short") :
    ∃ v, calculate_position_value p cp = .ok v := by
  obtain ⟨c, hc⟩ := Option.isSome_iff_exists.mp hk
  have hl : lookupPrice cp p.asset p.position_type = some c := by
    unfold lookupPrice
    rw [hc]
  rcases ht with h | h | h
  · exact ⟨calculate_spot_value p.quantity c, by
      unfold calculate_position_value
      rw [hl]
      unfold valueAtPrice
      rw [h]
      rfl⟩
  · exact ⟨calculate_futures_long_value p.quantity p.entry_price c
        (p.leverage.getD 1), by
      unfold calculate_position_value
      rw [hl]
      unfold valueAtPrice
      rw [h]
      rfl⟩
  · exact ⟨calculate_futures_short_value p.quantity p.entry_price c
        (p.leverage.getD 1), by
      unfold calculate_position_value
      rw [hl]
      unfold valueAtPrice
      rw [h]
      rfl⟩

theorem portfolio_foldl_ok {cp : PriceMap} :
    ∀ (ps : List Position),
      (∀ p ∈ ps, ∃ v, calculate_position_value p cp = .ok v) →
      ∀ (a : ℚ), ∃ tot, ps.foldl (addPosition cp) (.ok a) = .ok tot
  | [], _, a => ⟨a, rfl⟩
  | p :: rest, h, a => by
    obtain ⟨v, hv⟩ := h p (List.mem_cons_self _ _)
    obtain ⟨tot, htot⟩ := portfolio_foldl_ok rest
      (fun q hq => h q (List.mem_cons_of_mem _ hq)) (a + v)
    refine ⟨tot, ?_⟩
    rw [List.foldl_cons]
    rw [show addPosition cp (.ok a) p = .ok (a + v) by
      unfold addPosition
      rw [hv]]
    exact htot

theorem portfolio_value_ok (ps : List Position) (cp : PriceMap)
    (h : ∀ p ∈ ps, ∃ v, calculate_position_value p cp = .ok v) :
    ∃ tot, calculate_portfolio_value ps cp = .ok tot := by
  unfold calculate_portfolio_value
  exact portfolio_foldl_ok ps h 0

theorem pmGet_shock :
    ∀ (m : PriceMap) (s : ℚ) (k : PriceKey),
      pmGet (apply_price_shock m s) k =
        (pmGet m k).map (fun v => v * (1 + s))
  | [], _, _ => rfl
  | e :: rest, s, k => by
    by_cases he : e.1 = k
    · show pmGet ((e.1, e.2 * (1 + s)) :: apply_price_shock rest s) k = _
      unfold pmGet
      rw [List.find?_cons_of_pos _ (by simp [he]),
        List.find?_cons_of_pos _ (by simp [he])]
      rfl
    · show pmGet ((e.1, e.2 * (1 + s)) :: apply_price_shock rest s) k = _
      unfold pmGet
      rw [List.find?_cons_of_neg _ (by simp [he]),
        List.find?_cons_of_neg _ (by simp [he])]
      have := pmGet_shock rest s k
      unfold pmGet at this
      exact this

theorem shock_key_isSome {m : PriceMap} {s : ℚ} {k : PriceKey}
    (h : (pmGet m k).isSome = true) :
    (pmGet (apply_price_shock m s) k).isSome = true := by
  rw [pmGet_shock]
  obtain ⟨c, hc⟩ := Option.isSome_iff_exists.mp h
  rw [hc]
  rfl

theorem sensRows_ok {ps : List Position} {cp : PriceMap} {bv : ℚ}
    (h : ∀ (s : ℚ), ∀ p ∈ ps,
      ∃ v, calculate_position_value p (apply_price_shock cp s) = .ok v) :
    ∀ range, ∃ rows, sensRows ps cp bv range = .ok rows
  | [] => ⟨[], rfl⟩
  | shock :: rest => by
    obtain ⟨sv, hsv⟩ := portfolio_value_ok ps _ (h shock)
    obtain ⟨rows, hrows⟩ := @sensRows_ok ps cp bv h rest
    exact ⟨_, by unfold sensRows; rw [hsv, hrows]⟩

theorem rowPrices_key_isSome {t : AlignedTable} {i : Nat} :
    ∀ {ps : List Position},
      (∀ p ∈ ps, (tableGetCol t (colName p)).isSome = true) →
      ∀ p ∈ ps, (pmGet (rowPrices t ps i)
        (.composite p.asset p.position_type)).isSome = true := by
  intro ps
  induction ps with
  | nil => intro _ p hp; cases hp
  | cons q rest ih =>
    intro hcols p hp
    obtain ⟨colq, hcolq⟩ :=
      Option.isSome_iff_exists.mp (hcols q (List.mem_cons_self _ _))
    have hrow : rowPrices t (q :: rest) i =
        (.composite q.asset q.position_type, cellAt colq i) ::
          rowPrices t rest i := by
      unfold rowPrices
      rw [List.foldr_cons, hcolq]
    rw [hrow]
    rcases List.mem_cons.mp hp with rfl | hp
    · rw [pmGet_self_cons]
      rfl
    · exact pmGet_cons_isSome _
        (ih (fun r hr => hcols r (List.mem_cons_of_mem _ hr)) p hp)

theorem historicalAux_ok {t : AlignedTable} {ps : List Position}
    (hok : ∀ i : Nat, ∀ p ∈ ps,
      ∃ v, calculate_position_value p (rowPrices t ps i) = .ok v) :
    ∀ idxs, ∃ vs, historicalAux t ps idxs = .ok vs
  | [] => ⟨[], rfl⟩
  | i :: rest => by
    obtain ⟨vs, hvs⟩ := historicalAux_ok hok rest
    by_cases hemp : (rowPrices t ps i).isEmpty
    · refine ⟨vs, ?_⟩
      unfold historicalAux
      rw [if_pos hemp]
      exact hvs
    · obtain ⟨v, hv⟩ := portfolio_value_ok ps (rowPrices t ps i) (hok i)
      refine ⟨v :: vs, ?_⟩
      unfold historicalAux
      rw [if_neg hemp, hv, hvs]

theorem positions_with_values_ok {cp : PriceMap} :
    ∀ {ps : List Position},
      (∀ p ∈ ps, ∃ v, calculate_position_value p cp = .ok v) →
      ∃ l, positions_with_values cp ps = .ok l
  | [], _ => ⟨[], rfl⟩
  | p :: rest, h => by
    obtain ⟨v, hv⟩ := h p (List.mem_cons_self _ _)
    obtain ⟨l, hl⟩ := positions_with_values_ok
      (fun q hq => h q (List.mem_cons_of_mem _ hq))
    exact ⟨_, by unfold positions_with_values; rw [hv, hl]⟩

theorem calculate_risk_metrics_ok (impl : MetricsImpl) (settings : Settings)
    (pr pv : List ℚ) (cv : ℚ) (ad : ℤ) (ps : List Position)
    (t : AlignedTable) (cp : PriceMap)
    (hext : extract_current_prices t ps = .ok cp)
    (hval : ∀ p ∈ ps, ∃ v, calculate_position_value p cp = .ok v) :
    ∃ rm, calculate_risk_metrics impl settings pr pv cv ad ps t = .ok rm := by
  obtain ⟨l, hl⟩ := positions_with_values_ok hval
  exact ⟨_, by unfold calculate_risk_metrics; rw [hext]; dsimp only; rw [hl]⟩

theorem validated_types {ps : List Position}
    (h : validate_positions_typed ps = true) :
    ∀ p ∈ ps, p.position_type = "spot" ∨ p.position_type = "futures_long" ∨
      p.position_type = "futures_short" := by
  unfold validate_positions_typed at h
  simp only [Bool.and_eq_true, List.all_eq_true, decide_eq_true_eq,
    Bool.or_eq_true] at h
  intro p hp
  have := h.2 p hp
  tauto

theorem mergedDataWarning_eq (d : ℤ) (ws : List String) :
    mergedDataWarning d ws =
      (if d < 30 then
        (if ws = [] then some (daysWarning d)
         else some (daysWarning d ++ " | " ++ joinSemicolon ws))
      else
        (if ws = [] then none else some (joinSemicolon ws))) := by
  unfold mergedDataWarning
  by_cases hw : ws = [] <;> by_cases hd : d < 30 <;>
    simp [hw, hd, List.isEmpty_iff]

theorem mergedDataWarning_none_iff (d : ℤ) (ws : List String) :
    mergedDataWarning d ws = none ↔ (30 ≤ d ∧ ws = []) := by
  rw [mergedDataWarning_eq]
  by_cases hw : ws = [] <;> by_cases hd : d < 30 <;>
    simp [hw, hd] <;> omega

/-! ### C7 -/

/-- C7, counterexample to the frozen claim: a portfolio holding one
futures position on asset C, whose aligned history spans only five days
(far fewer than 30) and whose alignment raised no warnings, still yields
a successful risk profile whose `data_availability_warning` is null: the
code gates the low-data warning on the fetch-stage `actual_days` figure —
the minimum per-asset SPOT span, which defaults to the requested lookback
when no spot data exists (here 30) — not on the aligned history's span. -/
theorem claim7_counterexample :
    (fetch_portfolio_data cexDb7 720 ["C"] 30).2.2 = 30 ∧
    align_time_series
        (resample_to_daily (fetch_portfolio_data cexDb7 720 ["C"] 30).1
          (fetch_portfolio_data cexDb7 720 ["C"] 30).2.1).1
        (resample_to_daily (fetch_portfolio_data cexDb7 720 ["C"] 30).1
          (fetch_portfolio_data cexDb7 720 ["C"] 30).2.1).2 =
      .ok ({ timestamps := [2, 3, 4, 5, 6]
           , columns :=
               [("C_futures_mark",
                 [some 100, some 100, some 100, some 100, some 90]),
                ("C_funding", [some 0, some 0, some 0, some 0, some 0])] }
         , []) ∧
    responseWarning (calculate_risk_profile trivMetrics trivScen
        ⟨[0], 0⟩ cexDb7 720 [⟨"C", 1, "futures_long", 100, some 2⟩] 30) =
      some none := by
  refine ⟨?_, ?_, ?_⟩ <;> with_unfolding_all rfl

/-- C7, amended: on any run whose positions validate, whose alignment
succeeds and whose current-price extraction succeeds, the computation
proceeds to a Success result, and the response's
`data_availability_warning` equals the merge of the low-data warning —
gated on the fetch-stage `actual_days` figure (the minimum per-asset spot
span, defaulting to the requested lookback when no asset has spot data),
NOT on the aligned history's span — with the semicolon-joined alignment
warnings; the field is null iff that figure is at least 30 and no
alignment warning was raised. -/
theorem claim7_data_warning (impl : MetricsImpl) (scen : ScenariosImpl)
    (settings : Settings) (db : Database) (now : ℤ)
    (positions : List Position) (lookback_days : ℤ)
    (aligned : AlignedTable) (alignment_warnings : List String)
    (current_prices : PriceMap)
    (hval : validate_positions_typed positions = true)
    (halign : align_time_series
        (resample_to_daily
          (fetch_portfolio_data db now
            (dedupFirst (positions.map (fun p => p.asset))) lookback_days).1
          (fetch_portfolio_data db now
            (dedupFirst (positions.map (fun p => p.asset)))
            lookback_days).2.1).1
        (resample_to_daily
          (fetch_portfolio_data db now
            (dedupFirst (positions.map (fun p => p.asset))) lookback_days).1
          (fetch_portfolio_data db now
            (dedupFirst (positions.map (fun p => p.asset)))
            lookback_days).2.1).2 =
      .ok (aligned, alignment_warnings))
    (hprices : extract_current_prices aligned positions =
      .ok current_prices) :
    ∃ resp, calculate_risk_profile impl scen settings db now positions
        lookback_days = .ok resp ∧
      resp.data_availability_warning =
        mergedDataWarning
          (fetch_portfolio_data db now
            (dedupFirst (positions.map (fun p => p.asset)))
            lookback_days).2.2 alignment_warnings ∧
      (resp.data_availability_warning = none ↔
        30 ≤ (fetch_portfolio_data db now
          (dedupFirst (positions.map (fun p => p.asset)))
          lookback_days).2.2 ∧
        alignment_warnings = []) := by
  have htypes := validated_types hval
  have hkeys := extract_key_isSome hprices
  have hcols := extract_col_isSome hprices
  have hpv : ∀ p ∈ positions,
      ∃ v, calculate_position_value p current_prices = .ok v :=
    fun p hp => position_value_ok (hkeys p hp) (htypes p hp)
  obtain ⟨cv, hcv⟩ := portfolio_value_ok positions current_prices hpv
  have hhistok : ∀ i : Nat, ∀ p ∈ positions,
      ∃ v, calculate_position_value p (rowPrices aligned positions i) =
        .ok v :=
    fun i p hp =>
      position_value_ok (rowPrices_key_isSome hcols p hp) (htypes p hp)
  obtain ⟨pvs, hpvs⟩ :=
    historicalAux_ok hhistok (List.range aligned.timestamps.length)
  have hhist : historical_portfolio_values aligned positions = .ok pvs := by
    unfold historical_portfolio_values
    exact hpvs
  have hshock : ∀ (s : ℚ), ∀ p ∈ positions,
      ∃ v, calculate_position_value p
        (apply_price_shock current_prices s) = .ok v :=
    fun s p hp =>
      position_value_ok (shock_key_isSome (hkeys p hp)) (htypes p hp)
  obtain ⟨rows, hrows⟩ := @sensRows_ok positions current_prices cv hshock
    (settings.SENSITIVITY_RANGE.map (fun x => x / 100))
  have hsens : calculate_sensitivity_table positions current_prices
      (settings.SENSITIVITY_RANGE.map (fun x => x / 100)) = .ok rows := by
    unfold calculate_sensitivity_table
    rw [hcv]
    exact hrows
  obtain ⟨rm, hrm⟩ := calculate_risk_metrics_ok impl settings
    (impl.calculate_returns pvs) pvs cv
    (fetch_portfolio_data db now
      (dedupFirst (positions.map (fun p => p.asset))) lookback_days).2.2
    positions aligned current_prices hprices hpv
  have hmain : calculate_risk_profile impl scen settings db now positions
      lookback_days =
      .ok { current_portfolio_value := cv
          , data_availability_warning :=
              mergedDataWarning
                (fetch_portfolio_data db now
                  (dedupFirst (positions.map (fun p => p.asset)))
                  lookback_days).2.2 alignment_warnings
          , sensitivity_analysis := rows
          , risk_metrics :=
              { rm with
                delta_exposure := some (calculate_delta_exposure positions) }
          , scenarios := scen.run_all_scenarios positions current_prices } := by
    unfold calculate_risk_profile
    rw [if_neg (by simp [hval])]
    dsimp only
    rw [halign]
    dsimp only
    rw [hprices]
    dsimp only
    rw [hcv]
    dsimp only
    rw [hhist]
    dsimp only
    rw [hsens]
    dsimp only
    rw [hrm]
    rfl
  exact ⟨_, hmain, rfl, mergedDataWarning_none_iff _ _⟩

/-- Witness for the amended C7 at the counterexample database: the run
succeeds and the warning field is null (the fetch-stage figure is 30 and
alignment raised no warnings). -/
theorem claim7_data_warning_witness :
    ∃ resp, calculate_risk_profile trivMetrics trivScen ⟨[0], 0⟩ cexDb7 720
        [⟨"C", 1, "futures_long", 100, some 2⟩] 30 = .ok resp ∧
      resp.data_availability_warning =
        mergedDataWarning
          (fetch_portfolio_data cexDb7 720
            (dedupFirst (([⟨"C", 1, "futures_long", 100, some 2⟩] :
                List Position).map (fun p => p.asset))) 30).2.2 [] ∧
      (resp.data_availability_warning = none ↔
        30 ≤ (fetch_portfolio_data cexDb7 720
          (dedupFirst (([⟨"C", 1, "futures_long", 100, some 2⟩] :
              List Position).map (fun p => p.asset))) 30).2.2 ∧
        ([] : List String) = []) := by
  exact claim7_data_warning trivMetrics trivScen ⟨[0], 0⟩ cexDb7 720
    [⟨"C", 1, "futures_long", 100, some 2⟩] 30
    ⟨[2, 3, 4, 5, 6],
     [("C_futures_mark",
       [some 100, some 100, some 100, some 100, some 90]),
      ("C_funding", [some 0, some 0, some 0, some 0, some 0])]⟩ []
    [(.composite "C" "futures_long", 90)]
    (by with_unfolding_all rfl)
    (by with_unfolding_all rfl)
    (by with_unfolding_all rfl)

end Portfolio
